import Mathlib

/-! go-excel-sample: records to a styled sheet

A shallow embedding of `main.go`: the sanitizer, the width estimator, the
cell and row builders, the data-row loop, column width finalisation and the
top level `WriteRecordsToExcel`, followed by the properties proved of them.

Conventions of the embedding.

* A Go `string` is the list of its characters (`Str`).  Every string
  operation of the program inspects only the ASCII characters `-`, the
  apostrophe and the line feed, or whole code points (`TrimSpace`).
* Pointers into the sheet are rendered functionally: `sheet.AddRow()` starts
  an empty row, the cells are appended to it, and the row is stored as the
  last row of the sheet.
* An index out of range is a run-time panic: the functions that index the
  width accumulator return `Option`, `none` being the panic.
* A Go `error` is its message; `fmt.Errorf("ctx: %w", err)` is the message of
  `err` behind the context.  Calls to `log.Printf` are not represented.
* The measured widths are `float64(int)` values combined by `math.Max`, so an
  accumulator entry is represented by the natural number it holds.  The one
  inexact operation, `width*1.2`, is modelled with IEEE-754 round to nearest
  even on a 53-bit significand.
* What the third-party collaborators do (display width of a line, YAML
  serialisation, the failures of `AddSheet`, `SetColWidth` and `Save`) is a
  parameter, gathered in `Env`.
-/

namespace GoExcel

/-- Go `string`: the sequence of its characters. -/
abbrev Str := List Char

/-! ## The functions used from package `strings` -/

namespace strings

/-- `strings.HasPrefix(s, pre)`: `len(s) >= len(pre) && s[:len(pre)] == pre`. -/
def HasPrefix (s pre : Str) : Bool :=
  decide (pre.length ≤ s.length) && (s.take pre.length == pre)

/-- Left-to-right scan of `ReplaceAll` for a non-empty `old`: `skip` counts the
characters of a match that are still to be dropped. -/
def replaceFrom (old new : Str) : Nat → Str → Str
  | _, [] => []
  | skip + 1, _ :: cs => replaceFrom old new skip cs
  | 0, c :: cs =>
    if HasPrefix (c :: cs) old then new ++ replaceFrom old new (old.length - 1) cs
    else c :: replaceFrom old new 0 cs

/-- `strings.ReplaceAll(s, old, new)`: every non-overlapping instance of `old`
replaced by `new`; an empty `old` matches before every character and at the
end. -/
def ReplaceAll (s old new : Str) : Str :=
  if old = [] then new ++ s.flatMap (fun c => c :: new)
  else replaceFrom old new 0 s

/-- Left-to-right scan of `Split` for a non-empty `sep`: `cur` is the piece
being read, `skip` counts the characters of a separator still to be dropped. -/
def splitFrom (sep : Str) : Nat → Str → Str → List Str
  | _, cur, [] => [cur]
  | skip + 1, cur, _ :: cs => splitFrom sep skip cur cs
  | 0, cur, c :: cs =>
    if HasPrefix (c :: cs) sep then cur :: splitFrom sep (sep.length - 1) [] cs
    else splitFrom sep 0 (cur ++ [c]) cs

/-- `strings.Split(s, sep)`: the pieces of `s` between the instances of `sep`;
an empty `sep` splits after every character. -/
def Split (s sep : Str) : List Str :=
  if sep = [] then s.map (fun c => [c])
  else splitFrom sep 0 [] s

/-- `unicode.IsSpace`: the code points with the Unicode White_Space property. -/
def IsSpace (c : Char) : Bool :=
  let n := c.toNat
  (9 ≤ n && n ≤ 13) || n == 32 || n == 0x85 || n == 0xA0 || n == 0x1680 ||
  (0x2000 ≤ n && n ≤ 0x200A) || n == 0x2028 || n == 0x2029 || n == 0x202F ||
  n == 0x205F || n == 0x3000

/-- `strings.TrimSpace(s)`: `s` without its leading and trailing white space. -/
def TrimSpace (s : Str) : Str :=
  ((s.dropWhile IsSpace).reverse.dropWhile IsSpace).reverse

end strings

/-! ## Collaborators -/

/-- `xlsx.Style`, reduced to the fields the program assigns. -/
structure Style where
  WrapText : Bool
  Vertical : Str
  Horizontal : Str
  Bold : Bool
  deriving DecidableEq, Repr

/-- `xlsx.Cell`: value, style pointer (`none` before `SetStyle`) and the merge
directive. -/
structure Cell where
  Value : Str
  style : Option Style
  HMerge : Int
  VMerge : Int
  deriving DecidableEq, Repr

/-- `xlsx.Row`: its cells, in order. -/
abbrev Row := List Cell

/-- `xlsx.Sheet`: name, rows, and the successful `SetColWidth(startcol, endcol,
width)` applications in the order they were made. -/
structure Sheet where
  Name : Str
  Rows : List Row
  ColWidths : List (Nat × Nat × ℚ)
  deriving DecidableEq

/-- `xlsx.File`: the sheets of the workbook. -/
structure File where
  Sheets : List Sheet
  deriving DecidableEq

/-- Behaviour of the third-party packages the program calls. -/
structure Env where
  /-- Result of `runewidth.StringWidth(line)`. -/
  StringWidth : Str → Nat
  /-- Result of `yaml.Marshal(tags)`: the text, or the error. -/
  yamlMarshal : List Str → Except Str Str
  /-- Result of `xlsx.NewStyle()`. -/
  NewStyle : Style
  /-- Error of `workbook.AddSheet(name)` on the new workbook, if any. -/
  AddSheetErr : Str → Option Str
  /-- Error of `sheet.SetColWidth(startcol, endcol, width)`, if any. -/
  SetColWidthErr : Nat → Nat → ℚ → Option Str
  /-- Error of `workbook.Save(filePath)`, if any. -/
  SaveErr : File → Str → Option Str

/-- The cell `row.AddCell()` creates: no value, no style, not merged. -/
def NewCell : Cell := ⟨[], none, 0, 0⟩

/-- Assignment through a cell pointer: the cell at `idx` becomes `f` of itself. -/
def updateCell (row : Row) (idx : Nat) (f : Cell → Cell) : Row :=
  match row[idx]? with
  | some c => row.set idx (f c)
  | none => row

/-- `sheet.AddRow()` followed by the writes through the returned pointer: the
finished row is the last row of the sheet. -/
def Sheet.storeRow (sheet : Sheet) (row : Row) : Sheet :=
  { sheet with Rows := sheet.Rows ++ [row] }

/-- `sheet.SetColWidth(startcol, endcol, width)`. -/
def Sheet.SetColWidth (env : Env) (sheet : Sheet) (startcol endcol : Nat) (width : ℚ) :
    Except Str Sheet :=
  match env.SetColWidthErr startcol endcol width with
  | some e => .error e
  | none => .ok { sheet with ColWidths := sheet.ColWidths ++ [(startcol, endcol, width)] }

/-- Two's complement wrap-around of Go's 64-bit `int`. -/
def wrap64 (x : Int) : Int := (x + 2 ^ 63) % 2 ^ 64 - 2 ^ 63

/-! ## float64 arithmetic of the width finalisation -/

/-- Number of binary digits of `n`, halving at most `fuel` times. -/
def bitLenFrom : Nat → Nat → Nat
  | 0, _ => 0
  | fuel + 1, n => if n = 0 then 0 else bitLenFrom fuel (n / 2) + 1

/-- Number of binary digits of `n` (`n` halvings always suffice). -/
def bitLen (n : Nat) : Nat := bitLenFrom n n

/-- Round to nearest, ties to even, of a natural number to 53 significant
bits (the significand of a `float64`). -/
def roundSig53 (n : Nat) : Nat :=
  let bits := bitLen n
  if bits ≤ 53 then n
  else
    let k := bits - 53
    let q := n / 2 ^ k
    let r := n % 2 ^ k
    let half := 2 ^ (k - 1)
    (if half < r ∨ (r = half ∧ q % 2 = 1) then q + 1 else q) * 2 ^ k

/-- Significand of the `float64` constant `1.2`, which is
`5404319552844595 / 2^52`. -/
def sig1_2 : Nat := 5404319552844595

/-- The `float64` product `width*1.2` for `width = float64(w)`: the exact
product `w * sig1_2 / 2^52` rounded to a 53-bit significand.  The conversion
`float64(w)` is exact for `w < 2^53`, and no product of the program leaves the
normal range of `float64`. -/
def mul1_2 (w : Nat) : ℚ := (roundSig53 (w * sig1_2) : ℚ) / 2 ^ 52

/-! ## The program -/

structure Record where
  Name : Str
  Description : Str
  Tags : List Str
  Note : Str
  deriving DecidableEq, Repr

structure ColumnDefinition where
  Header : Str
  Title : Str
  deriving DecidableEq, Repr

def sanitizeCellValue (value : Str) : Str :=
  if strings.HasPrefix value "-".toList then "'".toList ++ value
  else value

def calculateDisplayWidth (env : Env) (content : Str) : Nat :=
  (strings.Split content "\n".toList).foldl
    (fun maxWidth line => max maxWidth (env.StringWidth line)) 0

/-- The loop of `mergeCells`: `n` further styled cells. -/
def addStyledCells (style : Style) : Nat → Row → Row
  | 0, row => row
  | n + 1, row => addStyledCells style n (row ++ [{ NewCell with style := some style }])

def mergeCells (row : Row) (startCol endCol : Int) (value : Str) (style : Style) : Row :=
  let cell := row.length
  let row := row ++ [{ NewCell with Value := value, style := some style }]
  let columnsToMerge := wrap64 (endCol - startCol)
  let row := addStyledCells style columnsToMerge.toNat row
  updateCell row cell (fun c => { c with HMerge := columnsToMerge, VMerge := 0 })

def addCell (env : Env) (row : Row) (value : Str) (style : Style)
    (maxColumnWidths : List Nat) (columnIndex : Nat) : Option (Row × List Nat) :=
  let row := row ++ [{ NewCell with Value := value, style := some style }]
  match maxColumnWidths[columnIndex]? with
  | none => none
  | some old =>
    some (row, maxColumnWidths.set columnIndex
      (max old (calculateDisplayWidth env (strings.ReplaceAll value "'".toList []))))

/-- The loop of `createTitleRow`, from index `i`; every iteration advances `i`,
so `fuel = len(columns)` iterations are never exhausted. -/
def createTitleRowLoop (style : Style) (columns : List ColumnDefinition) :
    Nat → Nat → Row → Row
  | 0, _, row => row
  | fuel + 1, i, row =>
    if h : i < columns.length then
      if h0 : i = 0 then
        createTitleRowLoop style columns fuel (i + 1 + 1)
          (mergeCells row 0 1 (columns.get ⟨0, by omega⟩).Title style)
      else if h2 : i = 2 then
        createTitleRowLoop style columns fuel (i + 1 + 1)
          (mergeCells row 2 3 (columns.get ⟨2, by omega⟩).Title style)
      else
        createTitleRowLoop style columns fuel (i + 1)
          (row ++ [{ NewCell with style := some style }])
    else row

def createTitleRow (sheet : Sheet) (style : Style) (columns : List ColumnDefinition) :
    Sheet × Option Str :=
  (sheet.storeRow (createTitleRowLoop style columns columns.length 0 []), none)

/-- The loop of `createHeaderRow` over `columns`, `i` being the index of the
first of them. -/
def createHeaderRowLoop (env : Env) (style : Style) :
    Nat → List ColumnDefinition → Row → List Nat → Option (Row × List Nat)
  | _, [], row, maxColumnWidths => some (row, maxColumnWidths)
  | i, col :: cols, row, maxColumnWidths =>
    match addCell env row (sanitizeCellValue col.Header) style maxColumnWidths i with
    | none => none
    | some (row, maxColumnWidths) =>
      createHeaderRowLoop env style (i + 1) cols row maxColumnWidths

def createHeaderRow (env : Env) (sheet : Sheet) (style : Style)
    (columns : List ColumnDefinition) (maxColumnWidths : List Nat) :
    Option (Sheet × List Nat) :=
  match createHeaderRowLoop env style 0 columns [] maxColumnWidths with
  | none => none
  | some (row, maxColumnWidths) => some (sheet.storeRow row, maxColumnWidths)

/-- The text of the Tags cell before sanitising (`var tags string` and the
`if` that follows it in `populateDataRows`), or the error of `yaml.Marshal`. -/
def tagsText (env : Env) (Tags : List Str) : Except Str Str :=
  match Tags with
  | [t] => .ok t
  | _ =>
    if 1 < Tags.length then
      match env.yamlMarshal Tags with
      | .error err => .error err
      | .ok tagYaml => .ok (strings.TrimSpace tagYaml)
    else .ok []

/-- Result of `populateDataRows`: the sheet and the accumulator as the call
leaves them, and the returned error (`none` for `nil`). -/
structure Populated where
  sheet : Sheet
  maxColumnWidths : List Nat
  err : Option Str

def populateDataRows (env : Env) (sheet : Sheet) (style : Style) :
    List Record → List Nat → Option Populated
  | [], maxColumnWidths => some ⟨sheet, maxColumnWidths, none⟩
  | record :: records, maxColumnWidths =>
    match addCell env [] (sanitizeCellValue record.Name) style maxColumnWidths 0 with
    | none => none
    | some (row, maxColumnWidths) =>
    match addCell env row (sanitizeCellValue record.Description) style maxColumnWidths 1 with
    | none => none
    | some (row, maxColumnWidths) =>
    match tagsText env record.Tags with
    | .error err =>
      some ⟨sheet.storeRow row, maxColumnWidths, some ("failed to marshal tags: ".toList ++ err)⟩
    | .ok tags =>
    match addCell env row (sanitizeCellValue tags) style maxColumnWidths 2 with
    | none => none
    | some (row, maxColumnWidths) =>
    match addCell env row (sanitizeCellValue record.Note) style maxColumnWidths 3 with
    | none => none
    | some (row, maxColumnWidths) =>
      populateDataRows env (sheet.storeRow row) style records maxColumnWidths

/-- The expression `math.Min(50, math.Max(10, width*1.2))`. -/
def adjustedWidth (width : Nat) : ℚ := min 50 (max 10 (mul1_2 width))

/-- The loop of `adjustColumnWidths` over the widths from index `i` on. -/
def adjustColumnWidthsLoop (env : Env) : Nat → List Nat → Sheet → Sheet × Option Str
  | _, [], sheet => (sheet, none)
  | i, width :: widths, sheet =>
    match sheet.SetColWidth env i i (adjustedWidth width) with
    | .error err =>
      (sheet, some ("failed to set column width for column ".toList ++ (toString i).toList
        ++ ": ".toList ++ err))
    | .ok sheet => adjustColumnWidthsLoop env (i + 1) widths sheet

def adjustColumnWidths (env : Env) (sheet : Sheet) (maxColumnWidths : List Nat) :
    Sheet × Option Str :=
  adjustColumnWidthsLoop env 0 maxColumnWidths sheet

/-- The `columns` literal of `WriteRecordsToExcel`. -/
def columns : List ColumnDefinition :=
  [ ⟨"Name".toList, "Name, Description".toList⟩,
    ⟨"Description".toList, "Name, Description".toList⟩,
    ⟨"Tags".toList, "Tags, Note".toList⟩,
    ⟨"Note".toList, "Tags, Note".toList⟩ ]

/-- `standardStyle` of `WriteRecordsToExcel`. -/
def standardStyle (env : Env) : Style :=
  { env.NewStyle with WrapText := true, Vertical := "center".toList }

/-- `titleStyle` of `WriteRecordsToExcel`. -/
def titleStyle (env : Env) : Style :=
  { env.NewStyle with
    WrapText := true, Vertical := "center".toList, Horizontal := "center".toList, Bold := true }

/-- Result of `WriteRecordsToExcel`: the workbook as built, the path it was
saved to (`none` when `Save` was not reached or failed), the returned error. -/
structure Written where
  workbook : File
  savedTo : Option Str
  err : Option Str

def WriteRecordsToExcel (env : Env) (records : List Record) (filePath : Str) :
    Option Written :=
  match env.AddSheetErr "Sheet1".toList with
  | some err => some ⟨⟨[]⟩, none, some ("failed to add sheet: ".toList ++ err)⟩
  | none =>
  let sheet : Sheet := ⟨"Sheet1".toList, [], []⟩
  let maxColumnWidths : List Nat :=
    [ calculateDisplayWidth env (columns.get ⟨0, by decide⟩).Header,
      calculateDisplayWidth env (columns.get ⟨1, by decide⟩).Header,
      calculateDisplayWidth env (columns.get ⟨2, by decide⟩).Header,
      calculateDisplayWidth env (columns.get ⟨3, by decide⟩).Header ]
  match createTitleRow sheet (titleStyle env) columns with
  | (sheet, some err) => some ⟨⟨[sheet]⟩, none, some ("failed to create title row: ".toList ++ err)⟩
  | (sheet, none) =>
  match createHeaderRow env sheet (standardStyle env) columns maxColumnWidths with
  | none => none
  | some (sheet, maxColumnWidths) =>
  match populateDataRows env sheet (standardStyle env) records maxColumnWidths with
  | none => none
  | some ⟨sheet, _, some err⟩ =>
    some ⟨⟨[sheet]⟩, none, some ("failed to populate data rows: ".toList ++ err)⟩
  | some ⟨sheet, maxColumnWidths, none⟩ =>
  match adjustColumnWidths env sheet maxColumnWidths with
  | (sheet, some err) =>
    some ⟨⟨[sheet]⟩, none, some ("failed to adjust column widths: ".toList ++ err)⟩
  | (sheet, none) =>
  match env.SaveErr ⟨[sheet]⟩ filePath with
  | some err => some ⟨⟨[sheet]⟩, none, some ("failed to save Excel file: ".toList ++ err)⟩
  | none => some ⟨⟨[sheet]⟩, some filePath, none⟩

/-- The `records` literal of `main`. -/
def mainRecords : List Record :=
  [ ⟨"-Name1".toList, "First line\nSecond line".toList,
      ["go".toList, "excel".toList, "example1".toList], "-Note1".toList⟩,
    ⟨"NormalName".toList, "Single line description".toList,
      ["yaml".toList, "example2".toList], "Note2".toList⟩,
    ⟨"-Name3".toList, "Multi-line\ntest\nexample".toList,
      ["multi".toList, "line".toList], "Additional note".toList⟩,
    ⟨"SingleTagName".toList, "Single tag description".toList, [], "Single tag note".toList⟩ ]

/-! ## Predicates used in the statements -/

/-- The accumulator `B` has the length of `A` and no entry of `B` is below the
entry of `A` at the same index. -/
def WidthsLe (A B : List Nat) : Prop :=
  B.length = A.length ∧ ∀ j, A.getD j 0 ≤ B.getD j 0

/-- The tag serialisation succeeds for the record: `yaml.Marshal` returns a
text whenever the program calls it (two or more tags). -/
def MarshalOk (env : Env) (record : Record) : Prop :=
  1 < record.Tags.length → ∃ tagYaml, env.yamlMarshal record.Tags = .ok tagYaml

/-! ## Sample collaborators, used to instantiate the theorems -/

/-- A display width in the manner of `runewidth`: 2 for the characters of the
East Asian wide blocks, 1 for the others. -/
def sampleRuneWidth (c : Char) : Nat :=
  let n := c.toNat
  if (0x1100 ≤ n ∧ n ≤ 0x115F) ∨ (0x2E80 ≤ n ∧ n ≤ 0xA4CF) ∨ (0xAC00 ≤ n ∧ n ≤ 0xD7A3) ∨
     (0xF900 ≤ n ∧ n ≤ 0xFAFF) ∨ (0xFE30 ≤ n ∧ n ≤ 0xFE6F) ∨ (0xFF00 ≤ n ∧ n ≤ 0xFF60) ∨
     (0xFFE0 ≤ n ∧ n ≤ 0xFFE6) then 2 else 1

/-- Block-style list text of plain scalars: one `- tag` line per tag. -/
def sampleMarshal (tags : List Str) : Except Str Str :=
  .ok (tags.flatMap (fun t => "- ".toList ++ t ++ "\n".toList))

/-- Collaborators that never fail, except `SetColWidth` on an inverted range. -/
def sampleEnv : Env where
  StringWidth := fun s => (s.map sampleRuneWidth).sum
  yamlMarshal := sampleMarshal
  NewStyle := ⟨false, "bottom".toList, "general".toList, false⟩
  AddSheetErr := fun _ => none
  SetColWidthErr := fun startcol endcol _ =>
    if endcol < startcol then some "startcol must be less than endcol".toList else none
  SaveErr := fun _ _ => none

/-- The sample collaborators with a serialiser that always fails. -/
def failingEnv : Env :=
  { sampleEnv with yamlMarshal := fun _ => .error "cannot marshal".toList }

/-! ## Lemmas on the string functions -/

theorem HasPrefix_singleton (c d : Char) (cs : Str) :
    strings.HasPrefix (c :: cs) [d] = (c == d) := by
  simp [strings.HasPrefix]

theorem splitFrom_ne_nil (sep : Str) (k : Nat) (cur s : Str) :
    strings.splitFrom sep k cur s ≠ [] := by
  induction s generalizing k cur with
  | nil => cases k <;> simp [strings.splitFrom]
  | cons c cs ih =>
    cases k with
    | zero =>
      simp only [strings.splitFrom]
      split
      · simp
      · exact ih _ _
    | succ k => simpa [strings.splitFrom] using ih k cur

theorem Split_newline_ne_nil (s : Str) : strings.Split s "\n".toList ≠ [] := by
  simp [strings.Split, splitFrom_ne_nil]

theorem replaceFrom_apostrophe (s : Str) :
    strings.replaceFrom "'".toList [] 0 s = s.filter (fun c => c != Char.ofNat 39) := by
  have hq : "'".toList = [Char.ofNat 39] := rfl
  induction s with
  | nil => rfl
  | cons c cs ih =>
    rw [hq] at ih ⊢
    simp only [strings.replaceFrom, HasPrefix_singleton, List.length_singleton, Nat.sub_self,
      List.nil_append, ih, List.filter_cons]
    by_cases hc : c = Char.ofNat 39
    · simp [hc]
    · simp [hc]

/-- `strings.ReplaceAll(value, "'", "")` removes every apostrophe of `value`
and nothing else. -/
theorem ReplaceAll_apostrophe (s : Str) :
    strings.ReplaceAll s "'".toList [] = s.filter (fun c => c != Char.ofNat 39) := by
  have hne : "'".toList ≠ [] := by decide
  simp only [strings.ReplaceAll, hne, ↓reduceIte]
  exact replaceFrom_apostrophe s

theorem intercalate_cons_of_ne_nil (sep a : Str) (l : List Str) (h : l ≠ []) :
    List.intercalate sep (a :: l) = a ++ sep ++ List.intercalate sep l := by
  cases l with
  | nil => exact absurd rfl h
  | cons b l => simp [List.intercalate, List.intersperse]

theorem splitFrom_newline_join (s cur : Str) :
    List.intercalate "\n".toList (strings.splitFrom "\n".toList 0 cur s) = cur ++ s := by
  have hn : "\n".toList = ['\n'] := rfl
  rw [hn]
  induction s generalizing cur with
  | nil => simp [strings.splitFrom, List.intercalate]
  | cons c cs ih =>
    simp only [strings.splitFrom, HasPrefix_singleton, List.length_singleton, Nat.sub_self]
    by_cases hc : c = '\n'
    · subst hc
      simp only [beq_self_eq_true, ↓reduceIte]
      rw [intercalate_cons_of_ne_nil _ _ _ (splitFrom_ne_nil _ _ _ _), ih]
      simp
    · have hb : (c == '\n') = false := by simpa using hc
      simp only [hb, Bool.false_eq_true, ↓reduceIte]
      rw [ih]
      simp

/-- `strings.Split(content, "\n")` cuts `content` at its line feeds: the lines
joined by line feeds are `content` again. -/
theorem Split_newline_join (s : Str) :
    List.intercalate "\n".toList (strings.Split s "\n".toList) = s := by
  have hne : "\n".toList ≠ [] := by decide
  simp only [strings.Split, hne, ↓reduceIte]
  simpa using splitFrom_newline_join s []

theorem splitFrom_newline_no_lf (s cur : Str) (hcur : '\n' ∉ cur) :
    ∀ line ∈ strings.splitFrom "\n".toList 0 cur s, '\n' ∉ line := by
  have hn : "\n".toList = ['\n'] := rfl
  rw [hn]
  induction s generalizing cur with
  | nil => simpa [strings.splitFrom] using hcur
  | cons c cs ih =>
    simp only [strings.splitFrom, HasPrefix_singleton, List.length_singleton, Nat.sub_self]
    by_cases hc : c = '\n'
    · subst hc
      simp only [beq_self_eq_true, ↓reduceIte, List.mem_cons]
      rintro line (rfl | hl)
      · exact hcur
      · exact ih [] (by simp) line hl
    · have hb : (c == '\n') = false := by simpa using hc
      simp only [hb, Bool.false_eq_true, ↓reduceIte]
      exact ih (cur ++ [c]) (by simp [hcur, Ne.symm hc])

/-- No line of `strings.Split(content, "\n")` contains a line feed. -/
theorem Split_newline_no_lf (s : Str) :
    ∀ line ∈ strings.Split s "\n".toList, '\n' ∉ line := by
  have hne : "\n".toList ≠ [] := by decide
  simp only [strings.Split, hne, ↓reduceIte]
  exact splitFrom_newline_no_lf s [] (by simp)

theorem foldl_max_ge_init (f : Str → Nat) (l : List Str) (a : Nat) :
    a ≤ l.foldl (fun m x => max m (f x)) a := by
  induction l generalizing a with
  | nil => simp
  | cons x xs ih => exact le_trans (le_max_left _ _) (ih _)

theorem foldl_max_ge_mem (f : Str → Nat) (l : List Str) (a : Nat) :
    ∀ x ∈ l, f x ≤ l.foldl (fun m x => max m (f x)) a := by
  induction l generalizing a with
  | nil => simp
  | cons y ys ih =>
    intro x hx
    rcases List.mem_cons.mp hx with rfl | hx
    · exact le_trans (le_max_right _ _) (foldl_max_ge_init f ys _)
    · exact ih _ x hx

theorem foldl_max_attained (f : Str → Nat) (l : List Str) (a : Nat) :
    l.foldl (fun m x => max m (f x)) a = a ∨
      ∃ x ∈ l, l.foldl (fun m x => max m (f x)) a = f x := by
  induction l generalizing a with
  | nil => simp
  | cons y ys ih =>
    rcases ih (max a (f y)) with h | ⟨x, hx, h⟩
    · rcases max_choice a (f y) with h2 | h2
      · left; simp only [List.foldl_cons]; rw [h, h2]
      · right; exact ⟨y, List.mem_cons_self _ _, by simp only [List.foldl_cons]; rw [h, h2]⟩
    · right; exact ⟨x, List.mem_cons_of_mem _ hx, h⟩

/-- C1: for every text `T`, `sanitizeCellValue T` is the apostrophe followed by
`T` when `T` starts with the character `-`, and is `T` unchanged otherwise;
the empty text is unchanged. -/
theorem sanitizeCellValue_spec (T : Str) :
    sanitizeCellValue T = (if T.head? = some '-' then "'".toList ++ T else T) ∧
      sanitizeCellValue [] = [] := by
  constructor
  · cases T with
    | nil => simp [sanitizeCellValue, strings.HasPrefix]
    | cons c cs =>
      have h : "-".toList = ['-'] := rfl
      simp only [sanitizeCellValue, h, HasPrefix_singleton, List.head?_cons, Option.some.injEq,
        beq_iff_eq]
  · simp [sanitizeCellValue, strings.HasPrefix]

/-- C2, evaluated at the text `-it's`: the form `addCell` measures for the
sanitised value is `-its`, not the text itself, and the width recorded is 4,
one less than the display width 5 of the text. -/
theorem stripped_form_drops_apostrophes :
    strings.ReplaceAll (sanitizeCellValue "-it's".toList) "'".toList [] = "-its".toList ∧
      strings.ReplaceAll (sanitizeCellValue "-it's".toList) "'".toList [] ≠ "-it's".toList ∧
      (addCell sampleEnv [] (sanitizeCellValue "-it's".toList) sampleEnv.NewStyle [0] 0).map
          Prod.snd = some [4] ∧
      sampleEnv.StringWidth "-it's".toList = 5 := by
  decide

/-- C3: for every text `C`, the lines of `strings.Split(C, "\n")` are free of
line feeds and give `C` back when joined by line feeds, and
`calculateDisplayWidth C` is the maximum of their display widths (it bounds
every line and is the width of one of them); it is 0 for the empty text when the
empty line measures 0, it is 3 for `a\nbb\nccc` when these three lines measure
1, 2 and 3, and it is 2 for a single glyph that measures 2. -/
theorem calculateDisplayWidth_spec (env : Env) :
    (∀ C : Str,
      List.intercalate "\n".toList (strings.Split C "\n".toList) = C ∧
      (∀ line ∈ strings.Split C "\n".toList, '\n' ∉ line) ∧
      (∀ line ∈ strings.Split C "\n".toList,
        env.StringWidth line ≤ calculateDisplayWidth env C) ∧
      (∃ line ∈ strings.Split C "\n".toList,
        calculateDisplayWidth env C = env.StringWidth line)) ∧
    (env.StringWidth [] = 0 → calculateDisplayWidth env [] = 0) ∧
    (env.StringWidth "a".toList = 1 → env.StringWidth "bb".toList = 2 →
      env.StringWidth "ccc".toList = 3 →
      calculateDisplayWidth env "a\nbb\nccc".toList = 3) ∧
    (∀ g : Char, g ≠ '\n' → env.StringWidth [g] = 2 → calculateDisplayWidth env [g] = 2) := by
  refine ⟨fun C => ⟨Split_newline_join C, Split_newline_no_lf C, ?_, ?_⟩, ?_, ?_, ?_⟩
  · exact foldl_max_ge_mem env.StringWidth _ 0
  · rcases foldl_max_attained env.StringWidth (strings.Split C "\n".toList) 0 with h | h
    · obtain ⟨x, hx⟩ := List.exists_mem_of_ne_nil _ (Split_newline_ne_nil C)
      refine ⟨x, hx, ?_⟩
      have h1 := foldl_max_ge_mem env.StringWidth _ 0 x hx
      unfold calculateDisplayWidth
      omega
    · exact h
  · intro h0
    have hs : strings.Split [] "\n".toList = [[]] := by decide
    unfold calculateDisplayWidth
    rw [hs]
    simp only [List.foldl_cons, List.foldl_nil, h0, max_self]
  · intro ha hb hc
    have hs : strings.Split "a\nbb\nccc".toList "\n".toList =
        ["a".toList, "bb".toList, "ccc".toList] := by decide
    unfold calculateDisplayWidth
    rw [hs]
    simp only [List.foldl_cons, List.foldl_nil, ha, hb, hc]
    decide
  · intro g hg h2
    have hs : strings.Split [g] "\n".toList = [[g]] := by
      have hn : "\n".toList = ['\n'] := rfl
      simp [strings.Split, hn, strings.splitFrom, HasPrefix_singleton, hg]
    unfold calculateDisplayWidth
    rw [hs]
    simp only [List.foldl_cons, List.foldl_nil, h2]
    decide

/-- Instance of C3 with the sample width: the empty text, the three-line text
and the single wide glyph U+65E5. -/
theorem calculateDisplayWidth_spec_witness :
    calculateDisplayWidth sampleEnv [] = 0 ∧
      calculateDisplayWidth sampleEnv "a\nbb\nccc".toList = 3 ∧
      calculateDisplayWidth sampleEnv [Char.ofNat 0x65E5] = 2 :=
  ⟨(calculateDisplayWidth_spec sampleEnv).2.1 (by decide),
   (calculateDisplayWidth_spec sampleEnv).2.2.1 (by decide) (by decide) (by decide),
   (calculateDisplayWidth_spec sampleEnv).2.2.2 (Char.ofNat 0x65E5) (by decide) (by decide)⟩


/-! ## Column width finalisation -/

theorem adjustColumnWidthsLoop_ok (env : Env)
    (hset : ∀ (i : Nat) (w : ℚ), env.SetColWidthErr i i w = none)
    (ws : List Nat) (i : Nat) (sheet : Sheet) :
    adjustColumnWidthsLoop env i ws sheet =
      ({ sheet with
          ColWidths := sheet.ColWidths ++
            (ws.enumFrom i).map (fun p => (p.1, p.1, min 50 (max 10 (mul1_2 p.2)))) },
        none) := by
  induction ws generalizing i sheet with
  | nil => simp [adjustColumnWidthsLoop]
  | cons w ws ih =>
    simp only [adjustColumnWidthsLoop, Sheet.SetColWidth, hset, ih, adjustedWidth,
      List.enumFrom_cons, List.map_cons, List.append_assoc, List.singleton_append]

/-- C4: when `SetColWidth` does not fail on a single-column range,
`adjustColumnWidths` returns no error and applies, in index order, exactly one
`SetColWidth(i, i, min(50, max(10, w_i*1.2)))` per accumulator entry `w_i`;
measured 0 gives 10, measured 100 gives 50 and measured 20 gives 24. -/
theorem adjustColumnWidths_spec (env : Env) (sheet : Sheet) (maxColumnWidths : List Nat)
    (hset : ∀ (i : Nat) (w : ℚ), env.SetColWidthErr i i w = none) :
    adjustColumnWidths env sheet maxColumnWidths =
      ({ sheet with
          ColWidths := sheet.ColWidths ++
            maxColumnWidths.enum.map (fun p => (p.1, p.1, min 50 (max 10 (mul1_2 p.2)))) },
        none) ∧
    min (50 : ℚ) (max 10 (mul1_2 0)) = 10 ∧
    min (50 : ℚ) (max 10 (mul1_2 100)) = 50 ∧
    min (50 : ℚ) (max 10 (mul1_2 20)) = 24 := by
  refine ⟨adjustColumnWidthsLoop_ok env hset maxColumnWidths 0 sheet, ?_, ?_, ?_⟩
  · have h : roundSig53 (0 * sig1_2) = 0 := by decide
    simp only [mul1_2, h]; norm_num
  · have h : roundSig53 (100 * sig1_2) = 120 * 2 ^ 52 := by decide
    simp only [mul1_2, h]; norm_num
  · have h : roundSig53 (20 * sig1_2) = 24 * 2 ^ 52 := by decide
    simp only [mul1_2, h]; norm_num

/-- Instance of C4: the accumulator `[0, 100, 20]` on an empty sheet, with the
sample collaborators. -/
theorem adjustColumnWidths_spec_witness :
    (∀ (i : Nat) (w : ℚ), sampleEnv.SetColWidthErr i i w = none) ∧
    adjustColumnWidths sampleEnv ⟨[], [], []⟩ [0, 100, 20] =
      (⟨[], [], [(0, 0, 10), (1, 1, 50), (2, 2, 24)]⟩, none) := by
  have hset : ∀ (i : Nat) (w : ℚ), sampleEnv.SetColWidthErr i i w = none := by
    intro i w; simp [sampleEnv]
  have h := adjustColumnWidths_spec sampleEnv ⟨[], [], []⟩ [0, 100, 20] hset
  refine ⟨hset, ?_⟩
  rw [h.1]
  simp only [List.enum, List.enumFrom, List.map, List.nil_append, h.2.1, h.2.2.1, h.2.2.2]


/-! ## Cells, the title row and the header row -/

theorem addCell_inRange (env : Env) (row : Row) (value : Str) (style : Style)
    (A : List Nat) (i : Nat) (hi : i < A.length) :
    addCell env row value style A i =
      some (row ++ [⟨value, some style, 0, 0⟩],
        A.set i (max (A.getD i 0)
          (calculateDisplayWidth env (strings.ReplaceAll value "'".toList [])))) := by
  have h1 : A[i]? = some (A.getD i 0) := by
    simp [List.getD, List.getElem?_eq_getElem hi]
  simp only [addCell, h1, NewCell]

theorem getD_set_ge (A : List Nat) (i j x : Nat) (hx : A.getD i 0 ≤ x) :
    A.getD j 0 ≤ (A.set i x).getD j 0 := by
  by_cases hij : i = j
  · subst hij
    by_cases hi : i < A.length
    · simp [List.getD, List.getElem?_set, hi] at hx ⊢
      simpa [List.getElem?_eq_getElem hi] using hx
    · have h1 : A[i]? = none := List.getElem?_eq_none (by omega)
      simp [List.getD, h1, List.getElem?_set, hi]
  · simp [List.getD, List.getElem?_set, hij]

theorem WidthsLe.refl (A : List Nat) : WidthsLe A A := ⟨rfl, fun _ => le_refl _⟩

theorem WidthsLe.trans {A B C : List Nat} (h1 : WidthsLe A B) (h2 : WidthsLe B C) :
    WidthsLe A C :=
  ⟨h2.1.trans h1.1, fun j => le_trans (h1.2 j) (h2.2 j)⟩

theorem addCell_step (env : Env) (row : Row) (value : Str) (style : Style)
    (A : List Nat) (i : Nat) (hi : i < A.length) :
    ∃ A', addCell env row value style A i = some (row ++ [⟨value, some style, 0, 0⟩], A') ∧
      WidthsLe A A' :=
  ⟨_, addCell_inRange env row value style A i hi, by simp,
    fun j => getD_set_ge A i j _ (le_max_left _ _)⟩

theorem createHeaderRowLoop_ok (env : Env) (style : Style) (cols : List ColumnDefinition)
    (i : Nat) (row : Row) (A : List Nat) (h : i + cols.length ≤ A.length) :
    ∃ A', createHeaderRowLoop env style i cols row A =
        some (row ++ cols.map (fun col => ⟨sanitizeCellValue col.Header, some style, 0, 0⟩), A') ∧
      WidthsLe A A' := by
  induction cols generalizing i row A with
  | nil => exact ⟨A, by simp [createHeaderRowLoop], WidthsLe.refl A⟩
  | cons col cols ih =>
    obtain ⟨A1, e1, w1⟩ := addCell_step env row (sanitizeCellValue col.Header) style A i
      (by simp at h; omega)
    obtain ⟨A', h1, h2⟩ := ih (i + 1)
      (row ++ [⟨sanitizeCellValue col.Header, some style, 0, 0⟩]) A1
      (by have := w1.1; simp at h ⊢; omega)
    refine ⟨A', ?_, w1.trans h2⟩
    simp only [createHeaderRowLoop, e1, h1, List.map_cons, List.append_assoc,
      List.singleton_append]

theorem createHeaderRow_ok (env : Env) (sheet : Sheet) (style : Style)
    (cols : List ColumnDefinition) (A : List Nat) (h : cols.length ≤ A.length) :
    ∃ A', createHeaderRow env sheet style cols A =
        some (sheet.storeRow
          (cols.map (fun col => ⟨sanitizeCellValue col.Header, some style, 0, 0⟩)), A') ∧
      WidthsLe A A' := by
  obtain ⟨A', h1, h2⟩ := createHeaderRowLoop_ok env style cols 0 [] A (by omega)
  exact ⟨A', by simp [createHeaderRow, h1], h2⟩

theorem createTitleRow_four (sheet : Sheet) (style : Style) (c0 c1 c2 c3 : ColumnDefinition) :
    createTitleRow sheet style [c0, c1, c2, c3] =
      (sheet.storeRow [⟨c0.Title, some style, 1, 0⟩, ⟨[], some style, 0, 0⟩,
          ⟨c2.Title, some style, 1, 0⟩, ⟨[], some style, 0, 0⟩], none) := by
  have hw : wrap64 1 = 1 := by decide
  simp [createTitleRow, createTitleRowLoop, mergeCells, hw, addStyledCells, updateCell,
    NewCell]

/-! ## The data rows -/

theorem tagsText_ok_of_marshalOk (env : Env) (record : Record) (h : MarshalOk env record) :
    ∃ tags, tagsText env record.Tags = .ok tags := by
  unfold MarshalOk at h
  match hT : record.Tags with
  | [] => exact ⟨[], by simp [tagsText]⟩
  | [t] => exact ⟨t, by simp [tagsText]⟩
  | a :: b :: rest =>
    rw [hT] at h
    obtain ⟨y, hy⟩ := h (by simp)
    exact ⟨strings.TrimSpace y, by simp [tagsText, hy]⟩

theorem populateDataRows_total (env : Env) (style : Style) (records : List Record)
    (sheet : Sheet) (A : List Nat) (h4 : 4 ≤ A.length) :
    ∃ res, populateDataRows env sheet style records A = some res ∧
      WidthsLe A res.maxColumnWidths := by
  induction records generalizing sheet A with
  | nil => exact ⟨_, rfl, WidthsLe.refl A⟩
  | cons r rs ih =>
    obtain ⟨A1, e1, w1⟩ := addCell_step env [] (sanitizeCellValue r.Name) style A 0 (by omega)
    obtain ⟨A2, e2, w2⟩ := addCell_step env ([] ++ [⟨sanitizeCellValue r.Name, some style, 0, 0⟩])
      (sanitizeCellValue r.Description) style A1 1 (by have := w1.1; omega)
    simp only [populateDataRows, e1, e2]
    cases hT : tagsText env r.Tags with
    | error err => exact ⟨_, rfl, w1.trans w2⟩
    | ok tags =>
      obtain ⟨A3, e3, w3⟩ := addCell_step env
        ([] ++ [⟨sanitizeCellValue r.Name, some style, 0, 0⟩] ++
          [⟨sanitizeCellValue r.Description, some style, 0, 0⟩])
        (sanitizeCellValue tags) style A2 2 (by have := w1.1; have := w2.1; omega)
      obtain ⟨A4, e4, w4⟩ := addCell_step env
        ([] ++ [⟨sanitizeCellValue r.Name, some style, 0, 0⟩] ++
          [⟨sanitizeCellValue r.Description, some style, 0, 0⟩] ++
          [⟨sanitizeCellValue tags, some style, 0, 0⟩])
        (sanitizeCellValue r.Note) style A3 3
        (by have := w1.1; have := w2.1; have := w3.1; omega)
      obtain ⟨res, hr, wr⟩ := ih
        (sheet.storeRow ([] ++ [⟨sanitizeCellValue r.Name, some style, 0, 0⟩] ++
          [⟨sanitizeCellValue r.Description, some style, 0, 0⟩] ++
          [⟨sanitizeCellValue tags, some style, 0, 0⟩] ++
          [⟨sanitizeCellValue r.Note, some style, 0, 0⟩])) A4
        (by have := w1.1; have := w2.1; have := w3.1; have := w4.1; omega)
      simp only [e3, e4]
      exact ⟨res, hr, ((w1.trans w2).trans (w3.trans w4)).trans wr⟩

theorem populateDataRows_ok (env : Env) (style : Style) (records : List Record)
    (sheet : Sheet) (A : List Nat) (h4 : 4 ≤ A.length)
    (hm : ∀ r ∈ records, MarshalOk env r) :
    ∃ res newRows, populateDataRows env sheet style records A = some res ∧
      res.err = none ∧
      res.sheet = ⟨sheet.Name, sheet.Rows ++ newRows, sheet.ColWidths⟩ ∧
      List.Forall₂ (fun (row : Row) (r : Record) =>
        ∃ tags, tagsText env r.Tags = .ok tags ∧
          row = [⟨sanitizeCellValue r.Name, some style, 0, 0⟩,
                 ⟨sanitizeCellValue r.Description, some style, 0, 0⟩,
                 ⟨sanitizeCellValue tags, some style, 0, 0⟩,
                 ⟨sanitizeCellValue r.Note, some style, 0, 0⟩]) newRows records ∧
      res.maxColumnWidths.length = A.length := by
  induction records generalizing sheet A with
  | nil => exact ⟨_, [], rfl, rfl, by simp, List.Forall₂.nil, rfl⟩
  | cons r rs ih =>
    obtain ⟨tags, hT⟩ := tagsText_ok_of_marshalOk env r (hm r (List.mem_cons_self _ _))
    obtain ⟨A1, e1, w1⟩ := addCell_step env [] (sanitizeCellValue r.Name) style A 0 (by omega)
    obtain ⟨A2, e2, w2⟩ := addCell_step env ([] ++ [⟨sanitizeCellValue r.Name, some style, 0, 0⟩])
      (sanitizeCellValue r.Description) style A1 1 (by have := w1.1; omega)
    obtain ⟨A3, e3, w3⟩ := addCell_step env
      ([] ++ [⟨sanitizeCellValue r.Name, some style, 0, 0⟩] ++
        [⟨sanitizeCellValue r.Description, some style, 0, 0⟩])
      (sanitizeCellValue tags) style A2 2 (by have := w1.1; have := w2.1; omega)
    obtain ⟨A4, e4, w4⟩ := addCell_step env
      ([] ++ [⟨sanitizeCellValue r.Name, some style, 0, 0⟩] ++
        [⟨sanitizeCellValue r.Description, some style, 0, 0⟩] ++
        [⟨sanitizeCellValue tags, some style, 0, 0⟩])
      (sanitizeCellValue r.Note) style A3 3
      (by have := w1.1; have := w2.1; have := w3.1; omega)
    obtain ⟨res, newRows, hr, herr, hsheet, hrows, hlen⟩ := ih
      (sheet.storeRow ([] ++ [⟨sanitizeCellValue r.Name, some style, 0, 0⟩] ++
        [⟨sanitizeCellValue r.Description, some style, 0, 0⟩] ++
        [⟨sanitizeCellValue tags, some style, 0, 0⟩] ++
        [⟨sanitizeCellValue r.Note, some style, 0, 0⟩])) A4
      (by have := w1.1; have := w2.1; have := w3.1; have := w4.1; omega)
      (fun r' hr' => hm r' (List.mem_cons_of_mem _ hr'))
    refine ⟨res, _ :: newRows, ?_, herr, ?_, List.Forall₂.cons ⟨tags, hT, rfl⟩ hrows, ?_⟩
    · simp only [populateDataRows, e1, e2, hT, e3, e4, hr]
    · rw [hsheet]; simp [Sheet.storeRow]
    · have := w1.1; have := w2.1; have := w3.1; have := w4.1; omega


theorem adjustColumnWidthsLoop_rows (env : Env) (ws : List Nat) (i : Nat) (sheet : Sheet) :
    (adjustColumnWidthsLoop env i ws sheet).1.Rows = sheet.Rows := by
  induction ws generalizing i sheet with
  | nil => rfl
  | cons w ws ih =>
    simp only [adjustColumnWidthsLoop, Sheet.SetColWidth]
    cases env.SetColWidthErr i i (adjustedWidth w) with
    | none => simp only [ih]
    | some e => rfl

theorem forall₂_getElem? {α β : Type} {R : α → β → Prop} {l₁ : List α} {l₂ : List β}
    (h : List.Forall₂ R l₁ l₂) (k : Nat) (b : β) (hb : l₂[k]? = some b) :
    ∃ a, l₁[k]? = some a ∧ R a b := by
  induction h generalizing k with
  | nil => simp at hb
  | cons hab _ ih =>
    cases k with
    | zero =>
      simp only [List.getElem?_cons_zero, Option.some.injEq] at hb
      exact ⟨_, by simp, hb ▸ hab⟩
    | succ k => simpa using ih k (by simpa using hb)

/-- The sheet `WriteRecordsToExcel` builds when `AddSheet` and every tag
serialisation succeed: the title row, the header row, one row per record. -/
theorem WriteRecordsToExcel_sheet (env : Env) (records : List Record) (filePath : Str)
    (hsheet : env.AddSheetErr "Sheet1".toList = none)
    (hm : ∀ r ∈ records, MarshalOk env r) :
    ∃ w sheet newRows, WriteRecordsToExcel env records filePath = some w ∧
      w.workbook.Sheets = [sheet] ∧
      sheet.Rows =
        [⟨"Name, Description".toList, some (titleStyle env), 1, 0⟩,
          ⟨[], some (titleStyle env), 0, 0⟩,
          ⟨"Tags, Note".toList, some (titleStyle env), 1, 0⟩,
          ⟨[], some (titleStyle env), 0, 0⟩] ::
        columns.map (fun col => ⟨sanitizeCellValue col.Header, some (standardStyle env), 0, 0⟩) ::
        newRows ∧
      List.Forall₂ (fun (row : Row) (r : Record) =>
        ∃ tags, tagsText env r.Tags = .ok tags ∧
          row = [⟨sanitizeCellValue r.Name, some (standardStyle env), 0, 0⟩,
                 ⟨sanitizeCellValue r.Description, some (standardStyle env), 0, 0⟩,
                 ⟨sanitizeCellValue tags, some (standardStyle env), 0, 0⟩,
                 ⟨sanitizeCellValue r.Note, some (standardStyle env), 0, 0⟩]) newRows records := by
  have htitle : createTitleRow ⟨"Sheet1".toList, [], []⟩ (titleStyle env) columns = _ :=
    createTitleRow_four ⟨"Sheet1".toList, [], []⟩ (titleStyle env)
      ⟨"Name".toList, "Name, Description".toList⟩
      ⟨"Description".toList, "Name, Description".toList⟩
      ⟨"Tags".toList, "Tags, Note".toList⟩ ⟨"Note".toList, "Tags, Note".toList⟩
  obtain ⟨A1, hhead, w1⟩ := createHeaderRow_ok env
    (Sheet.storeRow ⟨"Sheet1".toList, [], []⟩
      [⟨"Name, Description".toList, some (titleStyle env), 1, 0⟩,
        ⟨[], some (titleStyle env), 0, 0⟩,
        ⟨"Tags, Note".toList, some (titleStyle env), 1, 0⟩,
        ⟨[], some (titleStyle env), 0, 0⟩])
    (standardStyle env) columns
    [ calculateDisplayWidth env (columns.get ⟨0, by decide⟩).Header,
      calculateDisplayWidth env (columns.get ⟨1, by decide⟩).Header,
      calculateDisplayWidth env (columns.get ⟨2, by decide⟩).Header,
      calculateDisplayWidth env (columns.get ⟨3, by decide⟩).Header ] (by simp [columns])
  obtain ⟨res, newRows, hpop, herr, hres, hrows, _⟩ := populateDataRows_ok env (standardStyle env)
    records ((Sheet.storeRow ⟨"Sheet1".toList, [], []⟩
      [⟨"Name, Description".toList, some (titleStyle env), 1, 0⟩,
        ⟨[], some (titleStyle env), 0, 0⟩,
        ⟨"Tags, Note".toList, some (titleStyle env), 1, 0⟩,
        ⟨[], some (titleStyle env), 0, 0⟩]).storeRow
      (columns.map (fun col => ⟨sanitizeCellValue col.Header, some (standardStyle env), 0, 0⟩)))
    A1 (by have := w1.1; simp at this; omega) hm
  obtain ⟨ps, pw, pe⟩ := res
  simp only at herr hres
  subst herr
  have hrun : ∃ w : Written, w.workbook.Sheets = [(adjustColumnWidths env ps pw).1] ∧
      WriteRecordsToExcel env records filePath = some w := by
    unfold WriteRecordsToExcel
    simp only [hsheet]
    rw [htitle]
    simp only [hhead, hpop]
    cases hadj : adjustColumnWidths env ps pw with
    | mk s e =>
      cases e with
      | some err => exact ⟨_, rfl, rfl⟩
      | none =>
        simp only
        cases env.SaveErr ⟨[s]⟩ filePath with
        | some err => exact ⟨_, rfl, rfl⟩
        | none => exact ⟨_, rfl, rfl⟩
  obtain ⟨w, hw1, hw2⟩ := hrun
  refine ⟨w, _, newRows, hw2, hw1, ?_, hrows⟩
  rw [adjustColumnWidths, adjustColumnWidthsLoop_rows, hres]
  simp [Sheet.storeRow]


/-- C5: when `AddSheet` and the tag serialisation of every record succeed,
`WriteRecordsToExcel` builds one sheet with exactly `N + 2` rows for `N`
records (title row, header row, one row per record), each of exactly 4
cells. -/
theorem WriteRecordsToExcel_rows (env : Env) (records : List Record) (filePath : Str)
    (hsheet : env.AddSheetErr "Sheet1".toList = none)
    (hm : ∀ r ∈ records, MarshalOk env r) :
    ∃ w sheet, WriteRecordsToExcel env records filePath = some w ∧
      w.workbook.Sheets = [sheet] ∧
      sheet.Rows.length = records.length + 2 ∧
      ∀ row ∈ sheet.Rows, row.length = 4 := by
  obtain ⟨w, sheet, newRows, hw, hs, hrows, hdata⟩ :=
    WriteRecordsToExcel_sheet env records filePath hsheet hm
  refine ⟨w, sheet, hw, hs, ?_, ?_⟩
  · rw [hrows]
    simp [hdata.length_eq]
  · intro row hrow
    rw [hrows] at hrow
    rcases List.mem_cons.mp hrow with h | hrow
    · rw [h]; rfl
    rcases List.mem_cons.mp hrow with h | hrow
    · rw [h]; rfl
    obtain ⟨k, hk, hget⟩ := List.getElem_of_mem hrow
    have hk2 : k < records.length := hdata.length_eq ▸ hk
    obtain ⟨a, ha, tags, _, hrow'⟩ := forall₂_getElem? hdata k records[k]
      (List.getElem?_eq_getElem hk2)
    rw [List.getElem?_eq_getElem hk, Option.some.injEq] at ha
    rw [← hget, ha, hrow']
    rfl

/-- Instance of C5: the four records of `main` with the sample collaborators
give 6 rows of 4 cells. -/
theorem WriteRecordsToExcel_rows_witness :
    sampleEnv.AddSheetErr "Sheet1".toList = none ∧
    (∀ r ∈ mainRecords, MarshalOk sampleEnv r) ∧
    ∃ w sheet, WriteRecordsToExcel sampleEnv mainRecords "example_records.xlsx".toList = some w ∧
      w.workbook.Sheets = [sheet] ∧
      sheet.Rows.length = 4 + 2 ∧
      ∀ row ∈ sheet.Rows, row.length = 4 :=
  ⟨rfl, fun _ _ _ => ⟨_, rfl⟩,
    WriteRecordsToExcel_rows sampleEnv mainRecords "example_records.xlsx".toList rfl
      (fun _ _ _ => ⟨_, rfl⟩)⟩


theorem sanitizeCellValue_suffix (T : Str) : T <:+ sanitizeCellValue T := by
  unfold sanitizeCellValue
  split
  · exact List.suffix_append _ _
  · exact List.suffix_refl _

theorem sanitizeCellValue_dash (T : Str) (h : T.head? = some '-') :
    sanitizeCellValue T = "'".toList ++ T := by
  cases T with
  | nil => simp at h
  | cons c cs =>
    have hd : "-".toList = ['-'] := rfl
    simp only [List.head?_cons, Option.some.injEq] at h
    simp [sanitizeCellValue, hd, HasPrefix_singleton, h]

/-- C6: when every tag serialisation succeeds (and the accumulator has its 4
entries), `populateDataRows` returns no error and appends one row per record
in input order; the row of the `k`-th record has `sanitizeCellValue` of the
Name as cell 0, of the Description as cell 1 (the Description, line breaks
included, is a suffix of that cell) and of the Note as cell 3; a Name or
Note starting with `-` appears behind the apostrophe. -/
theorem populateDataRows_cells (env : Env) (style : Style) (records : List Record)
    (sheet : Sheet) (A : List Nat) (h4 : 4 ≤ A.length)
    (hm : ∀ r ∈ records, MarshalOk env r) :
    ∃ res, populateDataRows env sheet style records A = some res ∧ res.err = none ∧
      res.sheet.Rows.length = sheet.Rows.length + records.length ∧
      res.sheet.Rows.take sheet.Rows.length = sheet.Rows ∧
      ∀ (k : Nat) (r : Record), records[k]? = some r →
        ∃ row, res.sheet.Rows[sheet.Rows.length + k]? = some row ∧
          row[0]?.map Cell.Value = some (sanitizeCellValue r.Name) ∧
          row[1]?.map Cell.Value = some (sanitizeCellValue r.Description) ∧
          r.Description <:+ sanitizeCellValue r.Description ∧
          row[3]?.map Cell.Value = some (sanitizeCellValue r.Note) ∧
          (r.Name.head? = some '-' → row[0]?.map Cell.Value = some ("'".toList ++ r.Name)) ∧
          (r.Note.head? = some '-' → row[3]?.map Cell.Value = some ("'".toList ++ r.Note)) := by
  obtain ⟨res, newRows, hpop, herr, hres, hrows, _⟩ :=
    populateDataRows_ok env style records sheet A h4 hm
  refine ⟨res, hpop, herr, ?_, ?_, ?_⟩
  · rw [hres]; simp [hrows.length_eq]
  · rw [hres]; simp
  · intro k r hk
    obtain ⟨row, hrow, tags, _, hcells⟩ := forall₂_getElem? hrows k r hk
    refine ⟨row, ?_, ?_⟩
    · rw [hres]
      simpa [List.getElem?_append_right] using hrow
    · subst hcells
      refine ⟨rfl, rfl, sanitizeCellValue_suffix _, rfl, ?_, ?_⟩
      · intro h; rw [← sanitizeCellValue_dash _ h]; rfl
      · intro h; rw [← sanitizeCellValue_dash _ h]; rfl

/-- Instance of C6: the records of `main` on an empty sheet; the first record
(`k = 0`) has Name `-Name1` and Note `-Note1`. -/
theorem populateDataRows_cells_witness :
    4 ≤ [0, 0, 0, 0].length ∧ (∀ r ∈ mainRecords, MarshalOk sampleEnv r) ∧
    ∃ res, populateDataRows sampleEnv ⟨[], [], []⟩ sampleEnv.NewStyle mainRecords [0, 0, 0, 0] =
        some res ∧ res.err = none ∧
      res.sheet.Rows.length = 0 + mainRecords.length ∧
      ∃ row, res.sheet.Rows[0 + 0]? = some row ∧
        row[0]?.map Cell.Value = some "'-Name1".toList ∧
        row[3]?.map Cell.Value = some "'-Note1".toList := by
  refine ⟨by decide, fun _ _ _ => ⟨_, rfl⟩, ?_⟩
  obtain ⟨res, h1, h2, h3, _, h5⟩ := populateDataRows_cells sampleEnv sampleEnv.NewStyle
    mainRecords ⟨[], [], []⟩ [0, 0, 0, 0] (by decide) (fun _ _ _ => ⟨_, rfl⟩)
  obtain ⟨row, hr, _, _, _, _, hn, ht⟩ := h5 0 _ rfl
  exact ⟨res, h1, h2, h3, row, hr, hn rfl, ht rfl⟩

/-- C8 as stated fails: for the record with the single tag `-x` the Tags cell
holds that tag behind the apostrophe, not the tag verbatim. -/
theorem tags_cell_single_tag_not_verbatim :
    (populateDataRows sampleEnv ⟨[], [], []⟩ sampleEnv.NewStyle
        [⟨"n".toList, "d".toList, ["-x".toList], "".toList⟩] [0, 0, 0, 0]).map
      (fun res => res.sheet.Rows.map (fun row => row[2]?.map Cell.Value)) =
        some [some "'-x".toList] ∧
    "'-x".toList ≠ "-x".toList := by
  decide

/-- C8, amended: when every tag serialisation succeeds, the Tags cell (cell 2)
of the row of a record with exactly one tag `t` is `sanitizeCellValue t`, that
is `t` verbatim unless `t` starts with `-`, in which case it is `t` behind the
apostrophe; for a record with no tag it is the empty text. -/
theorem populateDataRows_tags_cell (env : Env) (style : Style) (records : List Record)
    (sheet : Sheet) (A : List Nat) (h4 : 4 ≤ A.length)
    (hm : ∀ r ∈ records, MarshalOk env r) :
    ∃ res, populateDataRows env sheet style records A = some res ∧ res.err = none ∧
      ∀ (k : Nat) (r : Record), records[k]? = some r →
        ∃ row, res.sheet.Rows[sheet.Rows.length + k]? = some row ∧
          (∀ t, r.Tags = [t] →
            row[2]?.map Cell.Value = some (if t.head? = some '-' then "'".toList ++ t else t)) ∧
          (r.Tags = [] → row[2]?.map Cell.Value = some []) := by
  obtain ⟨res, newRows, hpop, herr, hres, hrows, _⟩ :=
    populateDataRows_ok env style records sheet A h4 hm
  refine ⟨res, hpop, herr, ?_⟩
  intro k r hk
  obtain ⟨row, hrow, tags, htags, hcells⟩ := forall₂_getElem? hrows k r hk
  refine ⟨row, ?_, ?_, ?_⟩
  · rw [hres]
    simpa [List.getElem?_append_right] using hrow
  · intro t ht
    rw [ht] at htags
    simp only [tagsText, Except.ok.injEq] at htags
    subst hcells htags
    by_cases hd : t.head? = some '-'
    · rw [if_pos hd, ← sanitizeCellValue_dash _ hd]; rfl
    · cases t with
      | nil => simp [sanitizeCellValue, strings.HasPrefix]
      | cons c cs =>
        have hdash : "-".toList = ['-'] := rfl
        simp only [List.head?_cons, Option.some.injEq] at hd
        simp [sanitizeCellValue, hdash, HasPrefix_singleton, hd]
  · intro ht
    rw [ht] at htags
    simp only [tagsText, List.length_nil, Nat.not_lt_zero, ↓reduceIte, Except.ok.injEq] at htags
    subst hcells htags
    simp [sanitizeCellValue, strings.HasPrefix]

/-- Instance of the amended C8: a record with the single tag `-x` and a record
without tags. -/
theorem populateDataRows_tags_cell_witness :
    ∃ res, populateDataRows sampleEnv ⟨[], [], []⟩ sampleEnv.NewStyle
        [⟨"n".toList, "d".toList, ["-x".toList], "".toList⟩,
         ⟨"m".toList, "e".toList, [], "".toList⟩] [0, 0, 0, 0] = some res ∧
      (∃ row, res.sheet.Rows[0 + 0]? = some row ∧
        row[2]?.map Cell.Value = some "'-x".toList) ∧
      (∃ row, res.sheet.Rows[0 + 1]? = some row ∧ row[2]?.map Cell.Value = some []) := by
  obtain ⟨res, h1, _, h3⟩ := populateDataRows_tags_cell sampleEnv sampleEnv.NewStyle
    [⟨"n".toList, "d".toList, ["-x".toList], "".toList⟩,
     ⟨"m".toList, "e".toList, [], "".toList⟩] ⟨[], [], []⟩ [0, 0, 0, 0] (by decide)
    (fun _ _ _ => ⟨_, rfl⟩)
  obtain ⟨row0, hr0, ht0, _⟩ := h3 0 _ rfl
  obtain ⟨row1, hr1, _, hn1⟩ := h3 1 _ rfl
  exact ⟨res, h1, ⟨row0, hr0, ht0 _ rfl⟩, ⟨row1, hr1, hn1 rfl⟩⟩


/-! ## The tag text -/

theorem dropWhile_head_not (p : Char → Bool) (l : Str) (c : Char)
    (h : (l.dropWhile p).head? = some c) : p c = false := by
  have := List.head?_dropWhile_not p l
  rw [h] at this
  exact this

theorem TrimSpace_head_not_space (s : Str) (c : Char)
    (h : (strings.TrimSpace s).head? = some c) : strings.IsSpace c = false := by
  have hp : strings.TrimSpace s <+: s.dropWhile strings.IsSpace :=
    List.rdropWhile_prefix (p := strings.IsSpace) (l := s.dropWhile strings.IsSpace)
  obtain ⟨rest, hrest⟩ := hp
  cases hT : strings.TrimSpace s with
  | nil => rw [hT] at h; simp at h
  | cons d ds =>
    rw [hT] at h hrest
    simp only [List.head?_cons, Option.some.injEq] at h
    subst h
    exact dropWhile_head_not strings.IsSpace s d (by rw [← hrest]; rfl)

theorem TrimSpace_last_not_space (s : Str) (c : Char)
    (h : (strings.TrimSpace s).getLast? = some c) : strings.IsSpace c = false := by
  unfold strings.TrimSpace at h
  rw [List.getLast?_reverse] at h
  exact dropWhile_head_not strings.IsSpace _ c h

theorem infix_dropWhile (p : Char → Bool) (t y : Str)
    (ht : ∀ c, t.head? = some c → p c = false) (h : t <:+: y) : t <:+: y.dropWhile p := by
  obtain ⟨pre, post, rfl⟩ := h
  induction pre with
  | nil =>
    cases t with
    | nil => exact List.nil_infix
    | cons c cs =>
      have hc := ht c rfl
      simp only [List.nil_append, List.cons_append, List.dropWhile_cons, hc]
      exact ⟨[], post, by simp⟩
  | cons a pre ih =>
    simp only [List.cons_append, List.dropWhile_cons]
    split
    · simpa using ih
    · exact ⟨a :: pre, post, by simp⟩

theorem infix_TrimSpace (t y : Str)
    (hh : ∀ c, t.head? = some c → strings.IsSpace c = false)
    (hl : ∀ c, t.getLast? = some c → strings.IsSpace c = false)
    (h : t <:+: y) : t <:+: strings.TrimSpace y := by
  have h1 := infix_dropWhile strings.IsSpace t y hh h
  have h2 := infix_dropWhile strings.IsSpace t.reverse (y.dropWhile strings.IsSpace).reverse
    (by intro c hc; rw [List.head?_reverse] at hc; exact hl c hc)
    (List.reverse_infix.mpr h1)
  have h3 := List.reverse_infix.mpr h2
  rw [List.reverse_reverse] at h3
  exact h3

/-- C7 as stated fails: for the tags `a` and `b` followed by a no-break space
(U+00A0), serialised as the block list of the two plain scalars, the
serialisation contains both tags, but `strings.TrimSpace` removes the
no-break space with the final line feed: the tag text is `- a\n- b`, in which
the second tag does not appear. -/
theorem tagsText_trailing_space_tag_lost :
    sampleEnv.yamlMarshal ["a".toList, ['b', Char.ofNat 0xA0]] =
      .ok ("- a\n- b".toList ++ [Char.ofNat 0xA0, '\n']) ∧
    ['b', Char.ofNat 0xA0] <:+: "- a\n- b".toList ++ [Char.ofNat 0xA0, '\n'] ∧
    tagsText sampleEnv ["a".toList, ['b', Char.ofNat 0xA0]] = .ok "- a\n- b".toList ∧
    ¬ (['b', Char.ofNat 0xA0] <:+: "- a\n- b".toList) := by
  refine ⟨rfl, ⟨"- a\n- ".toList, ['\n'], by decide⟩, ?_, by decide⟩
  have ht : strings.TrimSpace ("- a\n- b".toList ++ [Char.ofNat 0xA0, '\n']) =
      "- a\n- b".toList := by decide
  have hy : sampleEnv.yamlMarshal ["a".toList, ['b', Char.ofNat 0xA0]] =
      .ok ("- a\n- b".toList ++ [Char.ofNat 0xA0, '\n']) := rfl
  have htags : tagsText sampleEnv ["a".toList, ['b', Char.ofNat 0xA0]] =
      .ok (strings.TrimSpace ("- a\n- b".toList ++ [Char.ofNat 0xA0, '\n'])) := by
    simp only [tagsText, hy]
    rfl
  rw [htags, ht]

/-- C7, amended: the tag text derived in `populateDataRows` is the empty text
for no tag, the tag itself for exactly one tag and, for two or more tags, the
serialisation returned by `yaml.Marshal` with `strings.TrimSpace` applied: it
neither begins nor ends with a white-space character (so with no blank line),
and every tag that appears in the serialisation and has no white space at its
own ends appears in it; when the serialisation of `["a","b"]` is the block
list `- a\n- b\n`, the text is the two lines `- a` and `- b`, which contain
`a` and `b`. -/
theorem tagsText_spec (env : Env) :
    tagsText env [] = .ok [] ∧
    (∀ t, tagsText env [t] = .ok t) ∧
    (∀ tags tagYaml, 2 ≤ tags.length → env.yamlMarshal tags = .ok tagYaml →
      tagsText env tags = .ok (strings.TrimSpace tagYaml) ∧
      (∀ c, (strings.TrimSpace tagYaml).head? = some c → strings.IsSpace c = false) ∧
      (∀ c, (strings.TrimSpace tagYaml).getLast? = some c → strings.IsSpace c = false) ∧
      (∀ t ∈ tags, t <:+: tagYaml →
        (∀ c, t.head? = some c → strings.IsSpace c = false) →
        (∀ c, t.getLast? = some c → strings.IsSpace c = false) →
        t <:+: strings.TrimSpace tagYaml)) ∧
    (env.yamlMarshal ["a".toList, "b".toList] = .ok "- a\n- b\n".toList →
      tagsText env ["a".toList, "b".toList] = .ok "- a\n- b".toList ∧
      strings.Split "- a\n- b".toList "\n".toList = ["- a".toList, "- b".toList] ∧
      "a".toList <:+: "- a\n- b".toList ∧ "b".toList <:+: "- a\n- b".toList) := by
  refine ⟨rfl, fun t => rfl, ?_, ?_⟩
  · intro tags tagYaml hlen hy
    refine ⟨?_, TrimSpace_head_not_space _, TrimSpace_last_not_space _,
      fun t _ hin hh hl => infix_TrimSpace t tagYaml hh hl hin⟩
    match tags, hlen, hy with
    | a :: b :: rest, _, hy => simp [tagsText, hy]
  · intro hy
    refine ⟨?_, by decide, ⟨"- ".toList, "\n- b".toList, by decide⟩,
      ⟨"- a\n- ".toList, [], by decide⟩⟩
    have ht : strings.TrimSpace "- a\n- b\n".toList = "- a\n- b".toList := by decide
    simp only [tagsText, hy, ← ht]
    rfl

/-- Instance of the amended C7 with the sample serialiser: the tags `a`, `b`. -/
theorem tagsText_spec_witness :
    tagsText sampleEnv ["a".toList, "b".toList] = .ok (strings.TrimSpace "- a\n- b\n".toList) ∧
    "a".toList <:+: strings.TrimSpace "- a\n- b\n".toList ∧
    (tagsText sampleEnv ["a".toList, "b".toList] = .ok "- a\n- b".toList ∧
      strings.Split "- a\n- b".toList "\n".toList = ["- a".toList, "- b".toList] ∧
      "a".toList <:+: "- a\n- b".toList ∧ "b".toList <:+: "- a\n- b".toList) :=
  ⟨((tagsText_spec sampleEnv).2.2.1 ["a".toList, "b".toList] "- a\n- b\n".toList
      (by decide) rfl).1,
    ((tagsText_spec sampleEnv).2.2.1 ["a".toList, "b".toList] "- a\n- b\n".toList
      (by decide) rfl).2.2.2 "a".toList (by decide) ⟨"- ".toList, "\n- b\n".toList, by decide⟩
      (by decide) (by decide),
    (tagsText_spec sampleEnv).2.2.2 rfl⟩

/-! ## The title row -/

/-- C9: for a list of four column definitions, `createTitleRow` appends
exactly one row of 4 cells, namely the Title of column 0 merged over one
further column with row-span 0, a styled empty placeholder, the Title of
column 2 merged likewise, a styled empty placeholder, and returns no error;
for the columns Name, Description, Tags, Note the two titles are
`Name, Description` and `Tags, Note`. -/
theorem createTitleRow_spec (sheet : Sheet) (style : Style) :
    (∀ c0 c1 c2 c3 : ColumnDefinition,
      createTitleRow sheet style [c0, c1, c2, c3] =
        (⟨sheet.Name, sheet.Rows ++
            [[⟨c0.Title, some style, 1, 0⟩, ⟨[], some style, 0, 0⟩,
              ⟨c2.Title, some style, 1, 0⟩, ⟨[], some style, 0, 0⟩]], sheet.ColWidths⟩,
          none)) ∧
    createTitleRow sheet style columns =
      (⟨sheet.Name, sheet.Rows ++
          [[⟨"Name, Description".toList, some style, 1, 0⟩, ⟨[], some style, 0, 0⟩,
            ⟨"Tags, Note".toList, some style, 1, 0⟩, ⟨[], some style, 0, 0⟩]],
          sheet.ColWidths⟩, none) :=
  ⟨fun c0 c1 c2 c3 => createTitleRow_four sheet style c0 c1 c2 c3,
    createTitleRow_four sheet style _ _ _ _⟩

/-! ## The width accumulator -/

/-- The accumulator as the code updates it: for an in-range column index `i`,
`addCell` appends the styled cell, keeps the length of the accumulator and
every entry other than `i`, and sets entry `i` to the maximum of its old value
and the display width of the value with every apostrophe removed (not only the
marker); hence the header row (accumulator at least as
long as the columns) and any sequence of data rows (accumulator of at least 4
entries, whether or not a serialisation fails) run without a panic and leave
an accumulator of the same length in which no entry has decreased. -/
theorem addCell_accumulator (env : Env) (style : Style) :
    (∀ (row : Row) (value : Str) (A : List Nat) (i : Nat), i < A.length →
      ∃ A', addCell env row value style A i = some (row ++ [⟨value, some style, 0, 0⟩], A') ∧
        A'.length = A.length ∧
        (∀ j, j ≠ i → A'[j]? = A[j]?) ∧
        A'[i]? = some (max (A.getD i 0)
          (calculateDisplayWidth env (strings.ReplaceAll value "'".toList [])))) ∧
    (∀ (sheet : Sheet) (cols : List ColumnDefinition) (A : List Nat), cols.length ≤ A.length →
      ∃ sheet' A', createHeaderRow env sheet style cols A = some (sheet', A') ∧
        WidthsLe A A') ∧
    (∀ (sheet : Sheet) (records : List Record) (A : List Nat), 4 ≤ A.length →
      ∃ res, populateDataRows env sheet style records A = some res ∧
        WidthsLe A res.maxColumnWidths) := by
  refine ⟨?_, ?_, ?_⟩
  · intro row value A i hi
    refine ⟨_, addCell_inRange env row value style A i hi, by simp, ?_, ?_⟩
    · intro j hj
      simp [List.getElem?_set, Ne.symm hj]
    · simp [List.getElem?_set, hi]
  · intro sheet cols A h
    obtain ⟨A', h1, h2⟩ := createHeaderRow_ok env sheet style cols A h
    exact ⟨_, A', h1, h2⟩
  · intro sheet records A h4
    exact populateDataRows_total env style records sheet A h4

/-- Instance of the accumulator lemma: one cell in column 1 of `[4, 11, 4, 4]`,
the header row of `columns`, and the data rows of the records of `main`. -/
theorem addCell_accumulator_witness :
    (∃ A', addCell sampleEnv [] "it's wide".toList sampleEnv.NewStyle [4, 11, 4, 4] 1 =
        some ([] ++ [⟨"it's wide".toList, some sampleEnv.NewStyle, 0, 0⟩], A') ∧
      A'.length = [4, 11, 4, 4].length ∧
      (∀ j, j ≠ 1 → A'[j]? = [4, 11, 4, 4][j]?) ∧
      A'[1]? = some (max ([4, 11, 4, 4].getD 1 0)
        (calculateDisplayWidth sampleEnv
          (strings.ReplaceAll "it's wide".toList "'".toList [])))) ∧
    (∃ sheet' A', createHeaderRow sampleEnv ⟨[], [], []⟩ sampleEnv.NewStyle columns [0, 0, 0, 0] =
        some (sheet', A') ∧ WidthsLe [0, 0, 0, 0] A') ∧
    (∃ res, populateDataRows sampleEnv ⟨[], [], []⟩ sampleEnv.NewStyle mainRecords [4, 11, 4, 4] =
        some res ∧ WidthsLe [4, 11, 4, 4] res.maxColumnWidths) :=
  ⟨(addCell_accumulator sampleEnv sampleEnv.NewStyle).1 [] "it's wide".toList [4, 11, 4, 4] 1
      (by decide),
    (addCell_accumulator sampleEnv sampleEnv.NewStyle).2.1 ⟨[], [], []⟩ columns [0, 0, 0, 0]
      (by decide),
    (addCell_accumulator sampleEnv sampleEnv.NewStyle).2.2 ⟨[], [], []⟩ mainRecords [4, 11, 4, 4]
      (by decide)⟩


/-! ## Failure of the tag serialisation -/

theorem tagsText_error (env : Env) (Tags : List Str) (err : Str) (hlen : 1 < Tags.length)
    (hr : env.yamlMarshal Tags = .error err) : tagsText env Tags = .error err := by
  match Tags, hlen, hr with
  | a :: b :: rest, _, hr => simp [tagsText, hr]

theorem populateDataRows_fail (env : Env) (style : Style) (pre : List Record) (r : Record)
    (post : List Record) (sheet : Sheet) (A : List Nat) (err : Str) (h4 : 4 ≤ A.length)
    (hpre : ∀ x ∈ pre, MarshalOk env x) (hlen : 1 < r.Tags.length)
    (hr : env.yamlMarshal r.Tags = .error err) :
    ∃ res preRows, populateDataRows env sheet style (pre ++ r :: post) A = some res ∧
      res.err = some ("failed to marshal tags: ".toList ++ err) ∧
      res.sheet = ⟨sheet.Name, sheet.Rows ++ preRows ++
        [[⟨sanitizeCellValue r.Name, some style, 0, 0⟩,
          ⟨sanitizeCellValue r.Description, some style, 0, 0⟩]], sheet.ColWidths⟩ ∧
      preRows.length = pre.length := by
  induction pre generalizing sheet A with
  | nil =>
    obtain ⟨A1, e1, w1⟩ := addCell_step env [] (sanitizeCellValue r.Name) style A 0 (by omega)
    obtain ⟨A2, e2, w2⟩ := addCell_step env ([] ++ [⟨sanitizeCellValue r.Name, some style, 0, 0⟩])
      (sanitizeCellValue r.Description) style A1 1 (by have := w1.1; omega)
    refine ⟨⟨sheet.storeRow [⟨sanitizeCellValue r.Name, some style, 0, 0⟩,
        ⟨sanitizeCellValue r.Description, some style, 0, 0⟩], A2,
        some ("failed to marshal tags: ".toList ++ err)⟩, [], ?_, rfl, ?_, rfl⟩
    · show populateDataRows env sheet style (r :: post) A = _
      simp only [populateDataRows, e1, e2, tagsText_error env _ err hlen hr]
      rfl
    · simp [Sheet.storeRow]
  | cons p pre ih =>
    obtain ⟨tags, hT⟩ := tagsText_ok_of_marshalOk env p (hpre p (List.mem_cons_self _ _))
    obtain ⟨A1, e1, w1⟩ := addCell_step env [] (sanitizeCellValue p.Name) style A 0 (by omega)
    obtain ⟨A2, e2, w2⟩ := addCell_step env ([] ++ [⟨sanitizeCellValue p.Name, some style, 0, 0⟩])
      (sanitizeCellValue p.Description) style A1 1 (by have := w1.1; omega)
    obtain ⟨A3, e3, w3⟩ := addCell_step env
      ([] ++ [⟨sanitizeCellValue p.Name, some style, 0, 0⟩] ++
        [⟨sanitizeCellValue p.Description, some style, 0, 0⟩])
      (sanitizeCellValue tags) style A2 2 (by have := w1.1; have := w2.1; omega)
    obtain ⟨A4, e4, w4⟩ := addCell_step env
      ([] ++ [⟨sanitizeCellValue p.Name, some style, 0, 0⟩] ++
        [⟨sanitizeCellValue p.Description, some style, 0, 0⟩] ++
        [⟨sanitizeCellValue tags, some style, 0, 0⟩])
      (sanitizeCellValue p.Note) style A3 3
      (by have := w1.1; have := w2.1; have := w3.1; omega)
    obtain ⟨res, preRows, hres, herr, hsheet, hlen'⟩ := ih
      (sheet.storeRow ([] ++ [⟨sanitizeCellValue p.Name, some style, 0, 0⟩] ++
        [⟨sanitizeCellValue p.Description, some style, 0, 0⟩] ++
        [⟨sanitizeCellValue tags, some style, 0, 0⟩] ++
        [⟨sanitizeCellValue p.Note, some style, 0, 0⟩])) A4
      (by have := w1.1; have := w2.1; have := w3.1; have := w4.1; omega)
      (fun x hx => hpre x (List.mem_cons_of_mem _ hx))
    refine ⟨res, [⟨sanitizeCellValue p.Name, some style, 0, 0⟩,
        ⟨sanitizeCellValue p.Description, some style, 0, 0⟩,
        ⟨sanitizeCellValue tags, some style, 0, 0⟩,
        ⟨sanitizeCellValue p.Note, some style, 0, 0⟩] :: preRows, ?_, herr, ?_, by simp [hlen']⟩
    · show populateDataRows env sheet style (p :: (pre ++ r :: post)) A = _
      simp only [populateDataRows, e1, e2, hT, e3, e4, hres]
    · rw [hsheet]; simp [Sheet.storeRow]


/-! ## The accumulator after the header row and the data rows -/

theorem createHeaderRow_columns (env : Env) (sheet : Sheet) (style : Style) :
    createHeaderRow env sheet style columns
      [ calculateDisplayWidth env (columns.get ⟨0, by decide⟩).Header,
        calculateDisplayWidth env (columns.get ⟨1, by decide⟩).Header,
        calculateDisplayWidth env (columns.get ⟨2, by decide⟩).Header,
        calculateDisplayWidth env (columns.get ⟨3, by decide⟩).Header ] =
      some (sheet.storeRow
          (columns.map (fun col => ⟨sanitizeCellValue col.Header, some style, 0, 0⟩)),
        [ calculateDisplayWidth env "Name".toList,
          calculateDisplayWidth env "Description".toList,
          calculateDisplayWidth env "Tags".toList,
          calculateDisplayWidth env "Note".toList ]) := by
  have h0 : strings.ReplaceAll (sanitizeCellValue "Name".toList) "'".toList [] = "Name".toList := by
    decide
  have h1 : strings.ReplaceAll (sanitizeCellValue "Description".toList) "'".toList [] =
      "Description".toList := by decide
  have h2 : strings.ReplaceAll (sanitizeCellValue "Tags".toList) "'".toList [] = "Tags".toList := by
    decide
  have h3 : strings.ReplaceAll (sanitizeCellValue "Note".toList) "'".toList [] = "Note".toList := by
    decide
  simp only [createHeaderRow, columns, createHeaderRowLoop, addCell, List.get, NewCell,
    h0, h1, h2, h3]
  simp

/-- `WriteRecordsToExcel` once the sheet exists: the title row and the header
row are written, and the rest is decided by `populateDataRows`. -/
theorem WriteRecordsToExcel_eq (env : Env) (records : List Record) (filePath : Str)
    (hsheet : env.AddSheetErr "Sheet1".toList = none) :
    WriteRecordsToExcel env records filePath =
      match populateDataRows env
          ((Sheet.storeRow ⟨"Sheet1".toList, [], []⟩
            [⟨"Name, Description".toList, some (titleStyle env), 1, 0⟩,
              ⟨[], some (titleStyle env), 0, 0⟩,
              ⟨"Tags, Note".toList, some (titleStyle env), 1, 0⟩,
              ⟨[], some (titleStyle env), 0, 0⟩]).storeRow
            (columns.map
              (fun col => ⟨sanitizeCellValue col.Header, some (standardStyle env), 0, 0⟩)))
          (standardStyle env) records
          [ calculateDisplayWidth env "Name".toList,
            calculateDisplayWidth env "Description".toList,
            calculateDisplayWidth env "Tags".toList,
            calculateDisplayWidth env "Note".toList ] with
      | none => none
      | some ⟨sheet, _, some err⟩ =>
        some ⟨⟨[sheet]⟩, none, some ("failed to populate data rows: ".toList ++ err)⟩
      | some ⟨sheet, maxColumnWidths, none⟩ =>
        match adjustColumnWidths env sheet maxColumnWidths with
        | (sheet, some err) =>
          some ⟨⟨[sheet]⟩, none, some ("failed to adjust column widths: ".toList ++ err)⟩
        | (sheet, none) =>
          match env.SaveErr ⟨[sheet]⟩ filePath with
          | some err => some ⟨⟨[sheet]⟩, none, some ("failed to save Excel file: ".toList ++ err)⟩
          | none => some ⟨⟨[sheet]⟩, some filePath, none⟩ := by
  have htitle : createTitleRow ⟨"Sheet1".toList, [], []⟩ (titleStyle env) columns = _ :=
    createTitleRow_four ⟨"Sheet1".toList, [], []⟩ (titleStyle env)
      ⟨"Name".toList, "Name, Description".toList⟩
      ⟨"Description".toList, "Name, Description".toList⟩
      ⟨"Tags".toList, "Tags, Note".toList⟩ ⟨"Note".toList, "Tags, Note".toList⟩
  unfold WriteRecordsToExcel
  simp only [hsheet]
  rw [htitle]
  simp only [createHeaderRow_columns]


/-- C11: if a record with two or more tags is the first whose serialisation
fails, `populateDataRows` (accumulator of at least 4 entries) stops at it,
having appended the rows of the records before it and the two cells already
written of its own row, and returns the serialiser's error behind
`failed to marshal tags: `; `WriteRecordsToExcel` then returns that error
behind `failed to populate data rows: `, with no column width set and nothing
saved.  When no serialisation fails, `populateDataRows` returns no error. -/
theorem marshal_failure_aborts (env : Env) :
    (∀ (pre : List Record) (r : Record) (post : List Record) (err : Str),
      (∀ x ∈ pre, MarshalOk env x) → 1 < r.Tags.length →
      env.yamlMarshal r.Tags = .error err →
      (∀ (sheet : Sheet) (style : Style) (A : List Nat), 4 ≤ A.length →
        ∃ res preRows, populateDataRows env sheet style (pre ++ r :: post) A = some res ∧
          res.err = some ("failed to marshal tags: ".toList ++ err) ∧
          res.sheet.Rows = sheet.Rows ++ preRows ++
            [[⟨sanitizeCellValue r.Name, some style, 0, 0⟩,
              ⟨sanitizeCellValue r.Description, some style, 0, 0⟩]] ∧
          preRows.length = pre.length ∧
          res.sheet.ColWidths = sheet.ColWidths) ∧
      (∀ filePath : Str, env.AddSheetErr "Sheet1".toList = none →
        ∃ w, WriteRecordsToExcel env (pre ++ r :: post) filePath = some w ∧
          w.err = some ("failed to populate data rows: failed to marshal tags: ".toList ++ err) ∧
          w.savedTo = none ∧
          ∀ sheet ∈ w.workbook.Sheets, sheet.ColWidths = [])) ∧
    (∀ (records : List Record) (sheet : Sheet) (style : Style) (A : List Nat),
      4 ≤ A.length → (∀ x ∈ records, MarshalOk env x) →
      ∃ res, populateDataRows env sheet style records A = some res ∧ res.err = none) := by
  refine ⟨fun pre r post err hpre hlen hr => ⟨?_, ?_⟩, ?_⟩
  · intro sheet style A h4
    obtain ⟨res, preRows, h1, h2, h3, h5⟩ :=
      populateDataRows_fail env style pre r post sheet A err h4 hpre hlen hr
    exact ⟨res, preRows, h1, h2, by rw [h3], h5, by rw [h3]⟩
  · intro filePath hsheet
    obtain ⟨res, preRows, h1, h2, h3, _⟩ :=
      populateDataRows_fail env (standardStyle env) pre r post
        ((Sheet.storeRow ⟨"Sheet1".toList, [], []⟩
          [⟨"Name, Description".toList, some (titleStyle env), 1, 0⟩,
            ⟨[], some (titleStyle env), 0, 0⟩,
            ⟨"Tags, Note".toList, some (titleStyle env), 1, 0⟩,
            ⟨[], some (titleStyle env), 0, 0⟩]).storeRow
          (columns.map
            (fun col => ⟨sanitizeCellValue col.Header, some (standardStyle env), 0, 0⟩)))
        [ calculateDisplayWidth env "Name".toList,
          calculateDisplayWidth env "Description".toList,
          calculateDisplayWidth env "Tags".toList,
          calculateDisplayWidth env "Note".toList ] err (by simp) hpre hlen hr
    obtain ⟨ps, pw, pe⟩ := res
    simp only at h2 h3
    subst h2
    refine ⟨⟨⟨[ps]⟩, none, some ("failed to populate data rows: ".toList ++
      ("failed to marshal tags: ".toList ++ err))⟩, ?_, rfl, rfl, ?_⟩
    · rw [WriteRecordsToExcel_eq env _ filePath hsheet, h1]
    · intro sheet hs
      simp only [List.mem_singleton] at hs
      rw [hs, h3]
      rfl
  · intro records sheet style A h4 hm
    obtain ⟨res, _, h1, h2, _⟩ := populateDataRows_ok env style records sheet A h4 hm
    exact ⟨res, h1, h2⟩

/-- Instance of C11: the serialiser always fails; a record without tags is
followed by the first record of `main` (three tags) and the rest. -/
theorem marshal_failure_aborts_witness :
    (∃ w, WriteRecordsToExcel failingEnv
        ([⟨"n".toList, "d".toList, [], "".toList⟩] ++
          ⟨"-Name1".toList, "First line\nSecond line".toList,
            ["go".toList, "excel".toList, "example1".toList], "-Note1".toList⟩ ::
          mainRecords.drop 1) "example_records.xlsx".toList = some w ∧
      w.err = some ("failed to populate data rows: failed to marshal tags: ".toList ++
        "cannot marshal".toList) ∧
      w.savedTo = none ∧ ∀ sheet ∈ w.workbook.Sheets, sheet.ColWidths = []) ∧
    (∃ res, populateDataRows sampleEnv ⟨[], [], []⟩ sampleEnv.NewStyle mainRecords [0, 0, 0, 0] =
      some res ∧ res.err = none) :=
  ⟨((marshal_failure_aborts failingEnv).1 [⟨"n".toList, "d".toList, [], "".toList⟩]
      ⟨"-Name1".toList, "First line\nSecond line".toList,
        ["go".toList, "excel".toList, "example1".toList], "-Note1".toList⟩
      (mainRecords.drop 1) "cannot marshal".toList
      (by intro x hx h; simp only [List.mem_singleton] at hx; subst hx; exact absurd h (by decide))
      (by decide) rfl).2 "example_records.xlsx".toList rfl,
    (marshal_failure_aborts sampleEnv).2 mainRecords ⟨[], [], []⟩ sampleEnv.NewStyle [0, 0, 0, 0]
      (by decide) (fun _ _ _ => ⟨_, rfl⟩)⟩

/-! ## Merged cells and the title row in general -/

theorem addStyledCells_eq (style : Style) (n : Nat) (row : Row) :
    addStyledCells style n row = row ++ List.replicate n ⟨[], some style, 0, 0⟩ := by
  induction n generalizing row with
  | zero => simp [addStyledCells]
  | succ n ih =>
    simp only [addStyledCells, ih, NewCell, List.append_assoc, List.singleton_append,
      List.replicate_succ]

theorem wrap64_of_lt (d : Int) (h0 : 0 ≤ d) (h1 : d < 2 ^ 63) : wrap64 d = d := by
  unfold wrap64
  rw [Int.emod_eq_of_lt (by omega) (by omega)]
  omega

theorem updateCell_append (row : Row) (x : Cell) (rest : Row) (f : Cell → Cell) :
    updateCell (row ++ x :: rest) row.length f = row ++ f x :: rest := by
  induction row with
  | nil => simp [updateCell]
  | cons a row ih =>
    unfold updateCell at ih ⊢
    simp only [List.cons_append, List.length_cons, List.getElem?_cons_succ, List.set_cons_succ]
    split at ih <;> rename_i heq <;> simp only [heq]
    · rw [ih]
    · rw [← ih]

theorem mergeCells_eq (row : Row) (startCol endCol : Int) (value : Str) (style : Style)
    (h : startCol ≤ endCol) (hno : endCol - startCol < 2 ^ 63) :
    mergeCells row startCol endCol value style =
      row ++ ⟨value, some style, endCol - startCol, 0⟩ ::
        List.replicate (endCol - startCol).toNat ⟨[], some style, 0, 0⟩ := by
  unfold mergeCells
  simp only [wrap64_of_lt (endCol - startCol) (by omega) hno, addStyledCells_eq, NewCell,
    List.append_assoc, List.singleton_append]
  rw [updateCell_append]

theorem createTitleRowLoop_tail (style : Style) (cols : List ColumnDefinition)
    (fuel i : Nat) (row : Row) (hi : 3 ≤ i) (hfuel : cols.length - i ≤ fuel) :
    createTitleRowLoop style cols fuel i row =
      row ++ List.replicate (cols.length - i) ⟨[], some style, 0, 0⟩ := by
  induction fuel generalizing i row with
  | zero =>
    have h0 : cols.length - i = 0 := by omega
    simp [createTitleRowLoop, h0]
  | succ fuel ih =>
    unfold createTitleRowLoop
    by_cases hlt : i < cols.length
    · have hi0 : i ≠ 0 := by omega
      have hi2 : i ≠ 2 := by omega
      simp only [hlt, hi0, hi2, ↓reduceDIte]
      rw [ih (i + 1) _ (by omega) (by omega)]
      have hs : cols.length - i = (cols.length - (i + 1)) + 1 := by omega
      rw [hs, List.replicate_succ]
      simp [NewCell]
    · have h0 : cols.length - i = 0 := by omega
      simp [hlt, h0]

theorem createTitleRow_row (sheet : Sheet) (style : Style) (cols : List ColumnDefinition) :
    createTitleRow sheet style cols =
      (sheet.storeRow
        (match cols with
          | [] => []
          | [c0] => [⟨c0.Title, some style, 1, 0⟩, ⟨[], some style, 0, 0⟩]
          | [c0, _] => [⟨c0.Title, some style, 1, 0⟩, ⟨[], some style, 0, 0⟩]
          | c0 :: _ :: c2 :: rest =>
            [⟨c0.Title, some style, 1, 0⟩, ⟨[], some style, 0, 0⟩,
              ⟨c2.Title, some style, 1, 0⟩, ⟨[], some style, 0, 0⟩] ++
              List.replicate (rest.length - 1) ⟨[], some style, 0, 0⟩), none) := by
  have hw : wrap64 1 = 1 := by decide
  match cols with
  | [] => rfl
  | [c0] =>
    simp [createTitleRow, createTitleRowLoop, mergeCells, hw, addStyledCells, updateCell, NewCell]
  | [c0, c1] =>
    simp [createTitleRow, createTitleRowLoop, mergeCells, hw, addStyledCells, updateCell, NewCell]
  | c0 :: c1 :: c2 :: rest =>
    have h4 := createTitleRowLoop_tail style (c0 :: c1 :: c2 :: rest) (rest.length + 1) 4
      [⟨c0.Title, some style, 1, 0⟩, ⟨[], some style, 0, 0⟩,
        ⟨c2.Title, some style, 1, 0⟩, ⟨[], some style, 0, 0⟩] (by omega)
      (by simp only [List.length_cons]; omega)
    have hl : (c0 :: c1 :: c2 :: rest).length - 4 = rest.length - 1 := by
      simp only [List.length_cons]; omega
    rw [hl] at h4
    simp only [createTitleRow, List.length_cons]
    rw [← h4]
    simp [createTitleRowLoop, mergeCells, hw, addStyledCells, updateCell, NewCell]


/-- C13 as stated fails: for a list of 1 column the title row has 2 cells, and
for a list of 3 columns it has 4 cells. -/
theorem createTitleRow_one_and_three_columns :
    (columns.take 1).length = 1 ∧
    (createTitleRow ⟨[], [], []⟩ sampleEnv.NewStyle (columns.take 1)).1.Rows.map List.length
      = [2] ∧
    (columns.take 3).length = 3 ∧
    (createTitleRow ⟨[], [], []⟩ sampleEnv.NewStyle (columns.take 3)).1.Rows.map List.length
      = [4] := by
  decide

/-- C13, amended: for every list of column definitions `createTitleRow`
appends one row and returns no error; the row has exactly one cell per column
when the number of columns is 0, 2 or at least 4, and one cell more than
there are columns when it is 1 or 3 (a merge group is always written as two
cells); every column index from 4 on is a blank styled cell. -/
theorem createTitleRow_cells (sheet : Sheet) (style : Style) (cols : List ColumnDefinition) :
    ∃ row, createTitleRow sheet style cols = (sheet.storeRow row, none) ∧
      row.length =
        (if cols.length = 1 ∨ cols.length = 3 then cols.length + 1 else cols.length) ∧
      ∀ j, 4 ≤ j → j < cols.length → row[j]? = some ⟨[], some style, 0, 0⟩ := by
  refine ⟨_, createTitleRow_row sheet style cols, ?_, ?_⟩
  · match cols with
    | [] => rfl
    | [c0] => rfl
    | [c0, c1] => rfl
    | [c0, c1, c2] => rfl
    | c0 :: c1 :: c2 :: c3 :: rest => simp
  · intro j h4 hj
    match cols, hj with
    | [], hj => simp at hj
    | [_], hj => simp only [List.length_cons, List.length_nil] at hj; omega
    | [_, _], hj => simp only [List.length_cons, List.length_nil] at hj; omega
    | [_, _, _], hj => simp only [List.length_cons, List.length_nil] at hj; omega
    | c0 :: c1 :: c2 :: c3 :: rest, hj =>
      simp only [List.length_cons] at hj
      obtain ⟨k, rfl⟩ : ∃ k, j = k + 4 := ⟨j - 4, by omega⟩
      simp only [List.length_cons, Nat.add_sub_cancel]
      rw [List.getElem?_append_right (by simp)]
      simp only [List.length_cons, List.length_nil, Nat.add_sub_cancel]
      rw [List.getElem?_replicate]
      simp
      omega

/-- Instance of the amended C13: six columns give six cells, the cells of the
columns 4 and 5 being blank styled cells. -/
theorem createTitleRow_cells_witness :
    ∃ row, createTitleRow ⟨[], [], []⟩ sampleEnv.NewStyle (columns ++ columns.take 2) =
        (Sheet.storeRow ⟨[], [], []⟩ row, none) ∧
      row.length = 6 ∧
      row[4]? = some ⟨[], some sampleEnv.NewStyle, 0, 0⟩ ∧
      row[5]? = some ⟨[], some sampleEnv.NewStyle, 0, 0⟩ := by
  obtain ⟨row, h1, h2, h3⟩ :=
    createTitleRow_cells ⟨[], [], []⟩ sampleEnv.NewStyle (columns ++ columns.take 2)
  exact ⟨row, h1, h2, h3 4 (by decide) (by decide), h3 5 (by decide) (by decide)⟩

/-- C14 as stated fails: with `startCol` the least and `endCol` the greatest
64-bit `int`, `endCol - startCol` wraps around to -1, and `mergeCells` appends
a single cell whose horizontal span is -1. -/
theorem mergeCells_wraps :
    (-9223372036854775808 : Int) ≤ 9223372036854775807 ∧
    mergeCells [] (-9223372036854775808) 9223372036854775807 "v".toList sampleEnv.NewStyle =
      [⟨"v".toList, some sampleEnv.NewStyle, -1, 0⟩] := by
  decide

/-- C14, amended: for every `startCol <= endCol` whose difference does not
overflow the 64-bit `int` (`endCol - startCol < 2^63`), `mergeCells` leaves
the cells already in the row unchanged and appends exactly
`endCol - startCol + 1` cells: the first carries the value, the style and the
merge directive of horizontal span `endCol - startCol` and row-span 0, each of
the other `endCol - startCol` cells is a styled placeholder with an empty
value. -/
theorem mergeCells_spec (row : Row) (startCol endCol : Int) (value : Str) (style : Style)
    (h : startCol ≤ endCol) (hno : endCol - startCol < 2 ^ 63) :
    mergeCells row startCol endCol value style =
      row ++ ⟨value, some style, endCol - startCol, 0⟩ ::
        List.replicate (endCol - startCol).toNat ⟨[], some style, 0, 0⟩ ∧
    ((mergeCells row startCol endCol value style).length : Int) =
      row.length + (endCol - startCol + 1) := by
  rw [mergeCells_eq row startCol endCol value style h hno]
  refine ⟨rfl, ?_⟩
  simp only [List.length_append, List.length_cons, List.length_replicate]
  omega

/-- Instance of the amended C14: columns 2 to 5 merged after one existing
cell. -/
theorem mergeCells_spec_witness :
    mergeCells [⟨"x".toList, none, 0, 0⟩] 2 5 "v".toList sampleEnv.NewStyle =
      [⟨"x".toList, none, 0, 0⟩] ++ ⟨"v".toList, some sampleEnv.NewStyle, 5 - 2, 0⟩ ::
        List.replicate ((5 : Int) - 2).toNat ⟨[], some sampleEnv.NewStyle, 0, 0⟩ ∧
    ((mergeCells [⟨"x".toList, none, 0, 0⟩] 2 5 "v".toList sampleEnv.NewStyle).length : Int) =
      ([⟨"x".toList, none, 0, 0⟩] : Row).length + (5 - 2 + 1) :=
  mergeCells_spec [⟨"x".toList, none, 0, 0⟩] 2 5 "v".toList sampleEnv.NewStyle (by decide)
    (by decide)


/-! ## No written value starts with the dash -/

theorem sanitizeCellValue_head (T : Str) : (sanitizeCellValue T).head? ≠ some '-' := by
  have hd : "-".toList = ['-'] := rfl
  have hq : "'".toList = [Char.ofNat 39] := rfl
  cases T with
  | nil => simp [sanitizeCellValue, strings.HasPrefix]
  | cons c cs =>
    simp only [sanitizeCellValue, hd, HasPrefix_singleton, hq]
    by_cases hc : c = '-'
    · subst hc
      simp only [beq_self_eq_true, ↓reduceIte, List.singleton_append, List.head?_cons, ne_eq,
        Option.some.injEq]
      decide
    · have hb : (c == '-') = false := by simpa using hc
      simpa [hb] using hc

theorem sanitizeCellValue_of_head (T : Str) (h : T.head? ≠ some '-') :
    sanitizeCellValue T = T := by
  have hd : "-".toList = ['-'] := rfl
  cases T with
  | nil => simp [sanitizeCellValue, strings.HasPrefix]
  | cons c cs =>
    have hc : c ≠ '-' := by simpa using h
    simp [sanitizeCellValue, hd, HasPrefix_singleton, hc]

theorem populateDataRows_sanitized (env : Env) (style : Style) (records : List Record)
    (sheet : Sheet) (A : List Nat) (h4 : 4 ≤ A.length) :
    ∃ res newRows, populateDataRows env sheet style records A = some res ∧
      res.sheet.Rows = sheet.Rows ++ newRows ∧
      ∀ row ∈ newRows, ∀ c ∈ row, c.Value.head? ≠ some '-' := by
  induction records generalizing sheet A with
  | nil => exact ⟨_, [], rfl, by simp, by simp⟩
  | cons r rs ih =>
    obtain ⟨A1, e1, w1⟩ := addCell_step env [] (sanitizeCellValue r.Name) style A 0 (by omega)
    obtain ⟨A2, e2, w2⟩ := addCell_step env ([] ++ [⟨sanitizeCellValue r.Name, some style, 0, 0⟩])
      (sanitizeCellValue r.Description) style A1 1 (by have := w1.1; omega)
    cases hT : tagsText env r.Tags with
    | error err =>
      refine ⟨⟨sheet.storeRow [⟨sanitizeCellValue r.Name, some style, 0, 0⟩,
          ⟨sanitizeCellValue r.Description, some style, 0, 0⟩], A2,
          some ("failed to marshal tags: ".toList ++ err)⟩,
        [[⟨sanitizeCellValue r.Name, some style, 0, 0⟩,
          ⟨sanitizeCellValue r.Description, some style, 0, 0⟩]], ?_, ?_, ?_⟩
      · simp only [populateDataRows, e1, e2, hT]
        rfl
      · simp [Sheet.storeRow]
      · simp [sanitizeCellValue_head]
    | ok tags =>
      obtain ⟨A3, e3, w3⟩ := addCell_step env
        ([] ++ [⟨sanitizeCellValue r.Name, some style, 0, 0⟩] ++
          [⟨sanitizeCellValue r.Description, some style, 0, 0⟩])
        (sanitizeCellValue tags) style A2 2 (by have := w1.1; have := w2.1; omega)
      obtain ⟨A4, e4, w4⟩ := addCell_step env
        ([] ++ [⟨sanitizeCellValue r.Name, some style, 0, 0⟩] ++
          [⟨sanitizeCellValue r.Description, some style, 0, 0⟩] ++
          [⟨sanitizeCellValue tags, some style, 0, 0⟩])
        (sanitizeCellValue r.Note) style A3 3
        (by have := w1.1; have := w2.1; have := w3.1; omega)
      obtain ⟨res, newRows, hr, hrows, hall⟩ := ih
        (sheet.storeRow ([] ++ [⟨sanitizeCellValue r.Name, some style, 0, 0⟩] ++
          [⟨sanitizeCellValue r.Description, some style, 0, 0⟩] ++
          [⟨sanitizeCellValue tags, some style, 0, 0⟩] ++
          [⟨sanitizeCellValue r.Note, some style, 0, 0⟩])) A4
        (by have := w1.1; have := w2.1; have := w3.1; have := w4.1; omega)
      refine ⟨res, [⟨sanitizeCellValue r.Name, some style, 0, 0⟩,
        ⟨sanitizeCellValue r.Description, some style, 0, 0⟩,
        ⟨sanitizeCellValue tags, some style, 0, 0⟩,
        ⟨sanitizeCellValue r.Note, some style, 0, 0⟩] :: newRows, ?_, ?_, ?_⟩
      · simp only [populateDataRows, e1, e2, hT, e3, e4, hr]
      · rw [hrows]; simp [Sheet.storeRow]
      · intro row hrow
        rcases List.mem_cons.mp hrow with h | h
        · subst h
          simp [sanitizeCellValue_head]
        · exact hall row h

/-- C15: for every text `T`, `sanitizeCellValue T` does not start with `-`,
and `sanitizeCellValue` is idempotent; hence the header row (accumulator at
least as long as the columns) and the data rows (accumulator of at least 4
entries, whether or not a serialisation fails) are written without a panic
and none of their cells has a value starting with `-`. -/
theorem sanitizeCellValue_no_dash (env : Env) (style : Style) :
    (∀ T : Str, (sanitizeCellValue T).head? ≠ some '-') ∧
    (∀ T : Str, sanitizeCellValue (sanitizeCellValue T) = sanitizeCellValue T) ∧
    (∀ (sheet : Sheet) (cols : List ColumnDefinition) (A : List Nat), cols.length ≤ A.length →
      ∃ sheet' A' row, createHeaderRow env sheet style cols A = some (sheet', A') ∧
        sheet'.Rows = sheet.Rows ++ [row] ∧ row.length = cols.length ∧
        ∀ c ∈ row, c.Value.head? ≠ some '-') ∧
    (∀ (sheet : Sheet) (records : List Record) (A : List Nat), 4 ≤ A.length →
      ∃ res newRows, populateDataRows env sheet style records A = some res ∧
        res.sheet.Rows = sheet.Rows ++ newRows ∧
        ∀ row ∈ newRows, ∀ c ∈ row, c.Value.head? ≠ some '-') := by
  refine ⟨sanitizeCellValue_head, fun T => sanitizeCellValue_of_head _ (sanitizeCellValue_head T),
    ?_, fun sheet records A h4 => populateDataRows_sanitized env style records sheet A h4⟩
  intro sheet cols A h
  obtain ⟨A', h1, _⟩ := createHeaderRow_ok env sheet style cols A h
  refine ⟨_, A', _, h1, rfl, by simp, ?_⟩
  intro c hc
  obtain ⟨col, _, rfl⟩ := List.mem_map.mp hc
  exact sanitizeCellValue_head _

/-- Instance of C15: the header row of `columns` and the data rows of the
records of `main`, with the sample collaborators. -/
theorem sanitizeCellValue_no_dash_witness :
    (∃ sheet' A' row, createHeaderRow sampleEnv ⟨[], [], []⟩ sampleEnv.NewStyle columns
        [0, 0, 0, 0] = some (sheet', A') ∧
      sheet'.Rows = [] ++ [row] ∧ row.length = columns.length ∧
      ∀ c ∈ row, c.Value.head? ≠ some '-') ∧
    (∃ res newRows, populateDataRows sampleEnv ⟨[], [], []⟩ sampleEnv.NewStyle mainRecords
        [0, 0, 0, 0] = some res ∧
      res.sheet.Rows = [] ++ newRows ∧
      ∀ row ∈ newRows, ∀ c ∈ row, c.Value.head? ≠ some '-') :=
  ⟨(sanitizeCellValue_no_dash sampleEnv sampleEnv.NewStyle).2.2.1 ⟨[], [], []⟩ columns
      [0, 0, 0, 0] (by decide),
    (sanitizeCellValue_no_dash sampleEnv sampleEnv.NewStyle).2.2.2 ⟨[], [], []⟩ mainRecords
      [0, 0, 0, 0] (by decide)⟩


/-! ## The widths set for values with an apostrophe of their own -/

/-- C12, evaluated at the single record whose Name is
`-it's a long name, isn't it` (display width 27, header `Name` of width 4):
the claim gives `m_0 = 27` and a width above 32 for column 0, while
`WriteRecordsToExcel` returns no error and sets the width of column 0 to 30,
that is `1.2 * 25`, the two apostrophes of the Name having been dropped with
the marker before measuring. -/
theorem column_width_drops_apostrophes :
    calculateDisplayWidth sampleEnv "Name".toList = 4 ∧
    calculateDisplayWidth sampleEnv "-it's a long name, isn't it".toList = 27 ∧
    (32 : ℚ) < min 50 (max 10 (mul1_2 27)) ∧
    ∃ w sheet, WriteRecordsToExcel sampleEnv
        [⟨"-it's a long name, isn't it".toList, [], [], []⟩] "out.xlsx".toList = some w ∧
      w.err = none ∧ w.workbook.Sheets = [sheet] ∧
      sheet.ColWidths.head? = some (0, 0, 30) := by
  refine ⟨by decide, by decide, ?_, ?_⟩
  · have h : roundSig53 (27 * sig1_2) = 145916627926804064 := by decide
    simp only [mul1_2, h]
    norm_num
  · have hset : ∀ (i : Nat) (w : ℚ), sampleEnv.SetColWidthErr i i w = none := by
      intro i w; simp [sampleEnv]
    have hpop :
        (populateDataRows sampleEnv
            ((Sheet.storeRow ⟨"Sheet1".toList, [], []⟩
              [⟨"Name, Description".toList, some (titleStyle sampleEnv), 1, 0⟩,
                ⟨[], some (titleStyle sampleEnv), 0, 0⟩,
                ⟨"Tags, Note".toList, some (titleStyle sampleEnv), 1, 0⟩,
                ⟨[], some (titleStyle sampleEnv), 0, 0⟩]).storeRow
              (columns.map
                (fun col =>
                  ⟨sanitizeCellValue col.Header, some (standardStyle sampleEnv), 0, 0⟩)))
            (standardStyle sampleEnv)
            [⟨"-it's a long name, isn't it".toList, [], [], []⟩]
            [ calculateDisplayWidth sampleEnv "Name".toList,
              calculateDisplayWidth sampleEnv "Description".toList,
              calculateDisplayWidth sampleEnv "Tags".toList,
              calculateDisplayWidth sampleEnv "Note".toList ]).map
          (fun res => (res.maxColumnWidths, res.err, res.sheet.ColWidths)) =
          some ([25, 11, 4, 4], none, []) := by
      decide
    have h25 : min (50 : ℚ) (max 10 (mul1_2 25)) = 30 := by
      have h : roundSig53 (25 * sig1_2) = 30 * 2 ^ 52 := by decide
      simp only [mul1_2, h]
      norm_num
    rw [WriteRecordsToExcel_eq sampleEnv _ _ rfl]
    revert hpop
    cases populateDataRows sampleEnv _ (standardStyle sampleEnv)
        [⟨"-it's a long name, isn't it".toList, [], [], []⟩] _ with
    | none => intro hpop; simp at hpop
    | some res =>
      intro hpop
      obtain ⟨ps, pw, pe⟩ := res
      simp only [Option.map_some', Option.some.injEq, Prod.mk.injEq] at hpop
      obtain ⟨hw, he, hc⟩ := hpop
      subst hw he
      simp only [adjustColumnWidths, adjustColumnWidthsLoop_ok sampleEnv hset]
      refine ⟨_, _, rfl, rfl, rfl, ?_⟩
      simp only [hc, List.enumFrom, List.map, List.nil_append, List.head?_cons, h25]


/-- C10, evaluated at the value `it's` (no marker: `sanitizeCellValue` leaves
it unchanged, display width 4) on the accumulator `[0]`: the claim gives
`max(0, 4) = 4` for entry 0, while `addCell` records 3, the width of `its`,
the apostrophe of the value having been dropped as if it were the marker. -/
theorem addCell_drops_own_apostrophe :
    sanitizeCellValue "it's".toList = "it's".toList ∧
    calculateDisplayWidth sampleEnv "it's".toList = 4 ∧
    addCell sampleEnv [] (sanitizeCellValue "it's".toList) sampleEnv.NewStyle [0] 0 =
      some ([⟨"it's".toList, some sampleEnv.NewStyle, 0, 0⟩], [3]) := by
  decide

end GoExcel
